import Mathlib

/-!
# Booking ledger of simple-hotels-mock-rest-api

A shallow embedding of `src/models/reservation.go`, `src/services/hotel_service.go`,
`src/services/reservation_service.go` and the parts of `src/handlers` that check
requests and map results to status codes, followed by the properties of the
reservation ledger and of the hotel search that are established about it.

Modelling conventions

* `time.Time` is an instant counted in whole seconds since `0000-01-01T00:00:00Z`
  (a natural number); `Before`, `After` and `Equal` are `<`, `>` and `=` on it.
* `time.Parse("2006-01-02", s)` is modelled by `ParseDate` below, following the
  standard library: four digits, `-`, two digits, `-`, two digits, month in
  `1..12`, day in `1..daysIn month year`, nothing after it.
* `map[string][]models.Reservation` is a function from keys to optional lists.
* `uuid.New().String()` and `time.Now().UTC()` are inputs of the operations that
  use them (`g` and `now`).
* Every operation returns its result together with the ledger after the call.
* Values of type `int` are integers, and `int` addition wraps to 64 bits; a slice
  expression with bounds out of range is the result `none`.
* The functions of package `strings` used by the search are parameters (`Strings`);
  a `float64` parameter is not-a-number, an infinity or a finite rational.
-/

namespace HotelsApi

/-! ## models -/

/-- An instant (`time.Time`), in seconds since `0000-01-01T00:00:00Z`. -/
abbrev Time := Nat

/-- Hotel entity (`models.Hotel`); the fields that no modelled function reads are left out. -/
structure Hotel where
  ID : String
  Name : String
  City : String
  CountryCode : String
  LowRate : Rat
  HighRate : Rat
  HotelRating : Rat
  AmenityMask : Int
deriving DecidableEq

/-- Reservation record (`models.Reservation`). -/
structure Reservation where
  ID : String
  HotelID : String
  CustomerName : String
  StartDate : String
  EndDate : String
  CreatedAt : Time
  UpdatedAt : Time
deriving DecidableEq

/-- Request body of a create call (`models.CreateReservationRequest`). -/
structure CreateReservationRequest where
  CustomerName : String
  StartDate : String
  EndDate : String
deriving DecidableEq

/-- Request body of an update call (`models.UpdateReservationRequest`). -/
structure UpdateReservationRequest where
  CustomerName : String
  StartDate : String
  EndDate : String
deriving DecidableEq

/-- ASCII digit test used by the date layout. -/
def isDigit (c : Char) : Bool := decide ('0'.toNat ≤ c.toNat) && decide (c.toNat ≤ '9'.toNat)

/-- Value of an ASCII digit. -/
def digitVal (c : Char) : Nat := c.toNat - '0'.toNat

/-- Gregorian leap year. -/
def isLeap (year : Nat) : Bool :=
  year % 4 == 0 && (year % 100 != 0 || year % 400 == 0)

/-- Number of days of a month (1-based) in a year. -/
def daysIn (month year : Nat) : Nat :=
  if month == 2 then (if isLeap year then 29 else 28)
  else if month == 4 || month == 6 || month == 9 || month == 11 then 30
  else 31

/-- Days of the year that precede the first day of a month (1-based). -/
def daysBefore (month year : Nat) : Nat :=
  ((List.range (month - 1)).map (fun m => daysIn (m + 1) year)).sum

/-- Days between `0000-01-01` and the first day of a year. -/
def daysBeforeYear (year : Nat) : Nat :=
  365 * year + (year + 3) / 4 - (year + 99) / 100 + (year + 399) / 400

/-- Instant of midnight UTC of a calendar day. -/
def dateInstant (year month day : Nat) : Time :=
  86400 * (daysBeforeYear year + daysBefore month year + (day - 1))

/-- Date parser (`models.ParseDate`): parses a date string in YYYY-MM-DD format;
`none` stands for the error result of `time.Parse`. -/
def ParseDate (dateStr : String) : Option Time :=
  match dateStr.data with
  | [y1, y2, y3, y4, s1, m1, m2, s2, d1, d2] =>
    if isDigit y1 && isDigit y2 && isDigit y3 && isDigit y4 && s1 == '-'
        && isDigit m1 && isDigit m2 && s2 == '-' && isDigit d1 && isDigit d2 then
      let year := digitVal y1 * 1000 + digitVal y2 * 100 + digitVal y3 * 10 + digitVal y4
      let month := digitVal m1 * 10 + digitVal m2
      let day := digitVal d1 * 10 + digitVal d2
      if month == 0 || decide (12 < month) then none
      else if decide (day < 1) || decide (daysIn month year < day) then none
      else some (dateInstant year month day)
    else none
  | _ => none

/-- Overlap test (`models.IsOverlapping`): checks if two date ranges overlap. -/
def IsOverlapping (start1 end1 start2 end2 : Time) : Bool :=
  (decide (start1 < end2) || decide (start1 = end2)) &&
    (decide (end1 > start2) || decide (end1 = start2))

/-! ## services: hotel catalog -/

/-- Catalog of hotels (`services.HotelService`). -/
structure HotelService where
  Hotels : List Hotel

/-- Catalog lookup (`HotelService.GetHotelByID`): the first hotel with the id, or
`none` for the error "hotel not found". -/
def HotelService.GetHotelByID (s : HotelService) (id : String) : Option Hotel :=
  s.Hotels.find? (fun hotel => hotel.ID == id)

/-! ## services: reservation ledger -/

/-- Error results of the ledger operations, one per message of the source. -/
inductive Error where
  | hotelNotFound
  | invalidStartDate
  | invalidEndDate
  | invalidDateRange
  | overlapConflict
  | reservationNotFound
deriving DecidableEq

deriving instance DecidableEq for Except

/-- Text of an error (for the two date errors, the prefix that wraps the parse error). -/
def Error.message : Error → String
  | .hotelNotFound => "hotel not found"
  | .invalidStartDate => "invalid start date"
  | .invalidEndDate => "invalid end date"
  | .invalidDateRange => "end date must be after start date"
  | .overlapConflict => "reservation dates overlap with an existing booking"
  | .reservationNotFound => "reservation not found"

/-- Ledger (`services.ReservationService`): the catalog and the map from hotel id
to the hotel's reservations. -/
structure ReservationService where
  hotelService : HotelService
  reservations : String → Option (List Reservation)

/-- Constructor of the ledger (`NewReservationService`): an empty map. -/
def NewReservationService (hotelService : HotelService) : ReservationService :=
  { hotelService := hotelService, reservations := fun _ => none }

/-- Map assignment `s.reservations[hotelID] = rs`. -/
def ReservationService.setReservations (s : ReservationService) (hotelID : String)
    (rs : List Reservation) : ReservationService :=
  { s with reservations := fun k => if k = hotelID then some rs else s.reservations k }

/-- Listing (`ReservationService.GetReservationsByHotelID`). -/
def ReservationService.GetReservationsByHotelID (s : ReservationService) (hotelID : String) :
    Except Error (List Reservation) × ReservationService :=
  match s.hotelService.GetHotelByID hotelID with
  | none => (.error .hotelNotFound, s)
  | some _ =>
    match s.reservations hotelID with
    | some reservations => (.ok reservations, s)
    | none => (.ok [], s)

/-- Lookup (`ReservationService.GetReservationByID`). -/
def ReservationService.GetReservationByID (s : ReservationService)
    (hotelID reservationID : String) : Except Error Reservation × ReservationService :=
  match s.hotelService.GetHotelByID hotelID with
  | none => (.error .hotelNotFound, s)
  | some _ =>
    match s.reservations hotelID with
    | some reservations =>
      match reservations.find? (fun reservation => reservation.ID == reservationID) with
      | some reservation => (.ok reservation, s)
      | none => (.error .reservationNotFound, s)
    | none => (.error .reservationNotFound, s)

/-- Loop of `hasOverlappingReservations` over one hotel's reservations. -/
def overlapScan (startDate endDate : Time) (excludeReservationID : String) :
    List Reservation → Bool
  | [] => false
  | reservation :: rest =>
    if reservation.ID = excludeReservationID then
      overlapScan startDate endDate excludeReservationID rest
    else
      match ParseDate reservation.StartDate with
      | none => overlapScan startDate endDate excludeReservationID rest
      | some existingStartDate =>
        match ParseDate reservation.EndDate with
        | none => overlapScan startDate endDate excludeReservationID rest
        | some existingEndDate =>
          if IsOverlapping startDate endDate existingStartDate existingEndDate then true
          else overlapScan startDate endDate excludeReservationID rest

/-- Overlap check (`ReservationService.hasOverlappingReservations`), one read-locked section. -/
def ReservationService.hasOverlappingReservations (s : ReservationService) (hotelID : String)
    (startDate endDate : Time) (excludeReservationID : String) : Bool :=
  match s.reservations hotelID with
  | some reservations => overlapScan startDate endDate excludeReservationID reservations
  | none => false

/-- Validation of hotel and dates shared by create and update (lines 71-90 and 123-142):
the parsed range, or the error returned. -/
def ReservationService.validate (s : ReservationService) (hotelID startDate endDate : String) :
    Except Error (Time × Time) :=
  match s.hotelService.GetHotelByID hotelID with
  | none => .error .hotelNotFound
  | some _ =>
    match ParseDate startDate with
    | none => .error .invalidStartDate
    | some start =>
      match ParseDate endDate with
      | none => .error .invalidEndDate
      | some stop =>
        if ¬ (stop > start) then .error .invalidDateRange
        else .ok (start, stop)

/-- First part of `CreateReservation` (lines 71-107), up to and including the overlap
check under the read lock: the reservation built for storing, or the error returned. -/
def ReservationService.createCheck (s : ReservationService) (hotelID : String)
    (req : CreateReservationRequest) (g : String) (now : Time) : Except Error Reservation :=
  match s.validate hotelID req.StartDate req.EndDate with
  | .error e => .error e
  | .ok (startDate, endDate) =>
    if s.hasOverlappingReservations hotelID startDate endDate "" then .error .overlapConflict
    else
      .ok { ID := g, HotelID := hotelID, CustomerName := req.CustomerName,
            StartDate := req.StartDate, EndDate := req.EndDate,
            CreatedAt := now, UpdatedAt := now }

/-- Second part of `CreateReservation` (lines 110-118), the write-locked section:
append to the hotel's slice, created empty when the key is absent. -/
def ReservationService.createStore (s : ReservationService) (hotelID : String)
    (reservation : Reservation) : ReservationService :=
  let s1 := match s.reservations hotelID with
    | some _ => s
    | none => s.setReservations hotelID []
  s1.setReservations hotelID ((s1.reservations hotelID).getD [] ++ [reservation])

/-- Create (`ReservationService.CreateReservation`), run without interference. -/
def ReservationService.CreateReservation (s : ReservationService) (hotelID : String)
    (req : CreateReservationRequest) (g : String) (now : Time) :
    Except Error Reservation × ReservationService :=
  match s.createCheck hotelID req g now with
  | .error e => (.error e, s)
  | .ok reservation => (.ok reservation, s.createStore hotelID reservation)

/-- Loop of `UpdateReservation` (lines 154-163): the slice with the first entry of the
given id rewritten, and that entry. -/
def updateScan (reservationID : String) (req : UpdateReservationRequest) (now : Time) :
    List Reservation → Option (List Reservation × Reservation)
  | [] => none
  | reservation :: rest =>
    if reservation.ID = reservationID then
      let updated : Reservation :=
        { reservation with CustomerName := req.CustomerName, StartDate := req.StartDate,
                           EndDate := req.EndDate, UpdatedAt := now }
      some (updated :: rest, updated)
    else
      match updateScan reservationID req now rest with
      | some (rest1, updated) => some (reservation :: rest1, updated)
      | none => none

/-- First part of `UpdateReservation` (lines 123-147), up to and including the overlap
check under the read lock. -/
def ReservationService.updateCheck (s : ReservationService) (hotelID reservationID : String)
    (req : UpdateReservationRequest) : Except Error Unit :=
  match s.validate hotelID req.StartDate req.EndDate with
  | .error e => .error e
  | .ok (startDate, endDate) =>
    if s.hasOverlappingReservations hotelID startDate endDate reservationID then
      .error .overlapConflict
    else .ok ()

/-- Second part of `UpdateReservation` (lines 149-166), the write-locked section. -/
def ReservationService.updateStore (s : ReservationService) (hotelID reservationID : String)
    (req : UpdateReservationRequest) (now : Time) :
    Except Error Reservation × ReservationService :=
  match s.reservations hotelID with
  | some reservations =>
    match updateScan reservationID req now reservations with
    | some (reservations1, updated) => (.ok updated, s.setReservations hotelID reservations1)
    | none => (.error .reservationNotFound, s)
  | none => (.error .reservationNotFound, s)

/-- Update (`ReservationService.UpdateReservation`), run without interference. -/
def ReservationService.UpdateReservation (s : ReservationService)
    (hotelID reservationID : String) (req : UpdateReservationRequest) (now : Time) :
    Except Error Reservation × ReservationService :=
  match s.updateCheck hotelID reservationID req with
  | .error e => (.error e, s)
  | .ok () => s.updateStore hotelID reservationID req now

/-- Loop of `DeleteReservation` (lines 181-187): the slice without the first entry of
the given id. -/
def deleteScan (reservationID : String) : List Reservation → Option (List Reservation)
  | [] => none
  | reservation :: rest =>
    if reservation.ID = reservationID then some rest
    else
      match deleteScan reservationID rest with
      | some rest1 => some (reservation :: rest1)
      | none => none

/-- Delete (`ReservationService.DeleteReservation`). -/
def ReservationService.DeleteReservation (s : ReservationService)
    (hotelID reservationID : String) : Except Error Unit × ReservationService :=
  match s.hotelService.GetHotelByID hotelID with
  | none => (.error .hotelNotFound, s)
  | some _ =>
    match s.reservations hotelID with
    | some reservations =>
      match deleteScan reservationID reservations with
      | some reservations1 => (.ok (), s.setReservations hotelID reservations1)
      | none => (.error .reservationNotFound, s)
    | none => (.error .reservationNotFound, s)

/-! ## Runs of the ledger -/

/-- A call on the ledger together with the values its run draws from the environment:
`g` is the string of the generated uuid, `now` the clock reading. -/
inductive Call where
  | create (hotelID : String) (req : CreateReservationRequest) (g : String) (now : Time)
  | update (hotelID reservationID : String) (req : UpdateReservationRequest) (now : Time)
  | delete (hotelID reservationID : String)

/-- The ledger together with the list of identifiers generated so far. -/
structure World where
  svc : ReservationService
  issued : List String

/-- The world at start-up. -/
def World.init (hs : HotelService) : World :=
  { svc := NewReservationService hs, issued := [] }

/-- Effect of one call run to completion; `uuid.New` is consulted only on the success
path of a create. -/
def World.exec (w : World) : Call → World
  | .create hotelID req g now =>
    match w.svc.CreateReservation hotelID req g now with
    | (.ok _, s1) => { svc := s1, issued := g :: w.issued }
    | (.error _, s1) => { svc := s1, issued := w.issued }
  | .update hotelID reservationID req now =>
    { w with svc := (w.svc.UpdateReservation hotelID reservationID req now).2 }
  | .delete hotelID reservationID =>
    { w with svc := (w.svc.DeleteReservation hotelID reservationID).2 }

/-- What is assumed of the identifier generator: the string of a uuid is not empty
and has not been generated before. -/
def Call.Fresh (w : World) : Call → Prop
  | .create _ _ g _ => g ≠ "" ∧ g ∉ w.issued
  | .update _ _ _ _ => True
  | .delete _ _ => True

/-- Worlds reached from start-up by calls run one after the other. -/
inductive Reachable (hs : HotelService) : World → Prop
  | init : Reachable hs (World.init hs)
  | step {w : World} (c : Call) : Reachable hs w → c.Fresh w → Reachable hs (w.exec c)

/-- Runs a list of calls from a world. -/
def World.run (w : World) : List Call → World
  | [] => w
  | c :: cs => (w.exec c).run cs

/-- Freshness of every generated identifier along a list of calls. -/
def World.FreshRun (w : World) : List Call → Prop
  | [] => True
  | c :: cs => c.Fresh w ∧ (w.exec c).FreshRun cs

/-- The calls of a list are all creates. -/
def Call.isCreate : Call → Bool
  | .create _ _ _ _ => true
  | _ => false

/-! ## Two creates in flight -/

/-- Progress of one `CreateReservation` call between its lock-delimited sections. -/
inductive CreateThread where
  | start (hotelID : String) (req : CreateReservationRequest) (g : String) (now : Time)
  | checked (hotelID : String) (reservation : Reservation)
  | done (result : Except Error Reservation)
deriving DecidableEq

/-- One section of a create call: from `start`, validation and the read-locked overlap
check; from `checked`, the write-locked append. -/
def CreateThread.step (s : ReservationService) : CreateThread → CreateThread × ReservationService
  | .start hotelID req g now =>
    match s.createCheck hotelID req g now with
    | .error e => (.done (.error e), s)
    | .ok reservation => (.checked hotelID reservation, s)
  | .checked hotelID reservation => (.done (.ok reservation), s.createStore hotelID reservation)
  | .done result => (.done result, s)

/-- Runs two create calls under a schedule: `true` lets the first call take its next
section, `false` the second. -/
def runTwo (s : ReservationService) (a b : CreateThread) :
    List Bool → CreateThread × CreateThread × ReservationService
  | [] => (a, b, s)
  | true :: rest => runTwo (a.step s).2 (a.step s).1 b rest
  | false :: rest => runTwo (b.step s).2 a (b.step s).1 rest

/-! ## Sample data -/

/-- A hotel with the given id and no other attribute of interest. -/
def sampleHotel (id : String) : Hotel :=
  { ID := id, Name := "", City := "", CountryCode := "", LowRate := 0, HighRate := 0,
    HotelRating := 0, AmenityMask := 0 }

/-- A catalog with the single hotel `H1`. -/
def sampleCatalog : HotelService := { Hotels := [sampleHotel "H1"] }

/-- Generated id of Alice's reservation. -/
def aliceID : String := "a3bb189e-8bf9-4888-9912-ace4e6543002"

/-- Generated id of Bob's reservation. -/
def bobID : String := "0f8fad5b-d9cb-469f-a165-70867728950e"

/-- Generated id of Carol's reservation. -/
def carolID : String := "7c9e6679-7425-40de-944b-e07fc1f90ae7"

/-- An id that no reservation carries. -/
def unknownID : String := "123e4567-e89b-42d3-a456-426614174000"

/-- Clock reading of the first call (2024-03-01 08:15:00 UTC). -/
def t0 : Time := 63876500100

/-- Clock reading one second after `t0`. -/
def t1 : Time := 63876500101

/-- Clock reading two seconds after `t0`. -/
def t2 : Time := 63876500102

/-- Clock reading three seconds after `t0`. -/
def t3 : Time := 63876500103

/-- Clock reading a hundred seconds after `t0`. -/
def t4 : Time := 63876500200

/-- Alice's reservation as `Create(H1, Alice, 2024-03-01, 2024-03-05)` stores it. -/
def aliceStay : Reservation :=
  ⟨aliceID, "H1", "Alice", "2024-03-01", "2024-03-05", t0, t0⟩

/-- Bob's reservation as `Create(H1, Bob, 2024-03-06, 2024-03-10)` stores it. -/
def bobStay : Reservation :=
  ⟨bobID, "H1", "Bob", "2024-03-06", "2024-03-10", t1, t1⟩

/-- Carol's reservation as `Create(H1, Carol, 2024-03-04, 2024-03-06)` builds it. -/
def carolStay : Reservation :=
  ⟨carolID, "H1", "Carol", "2024-03-04", "2024-03-06", t0, t0⟩

/-- A create request. -/
def mkCreate (name startDate endDate : String) : CreateReservationRequest :=
  { CustomerName := name, StartDate := startDate, EndDate := endDate }

/-- An update request. -/
def mkUpdate (name startDate endDate : String) : UpdateReservationRequest :=
  { CustomerName := name, StartDate := startDate, EndDate := endDate }

/-- The sample ledger after `Create(H1, Alice, 2024-03-01, 2024-03-05)`. -/
def aliceWorld : World :=
  (World.init sampleCatalog).exec
    (.create "H1" (mkCreate "Alice" "2024-03-01" "2024-03-05") aliceID t0)

/-! ## handlers: reservation endpoints -/

/-- Delete endpoint (`ReservationHandler.DeleteReservation`): the status code written and
the ledger after the call; 204 is `StatusNoContent`, 404 `StatusNotFound`, 500
`StatusInternalServerError`. -/
def ReservationHandler.DeleteReservation (Service : ReservationService)
    (hotelID reservationID : String) : Nat × ReservationService :=
  match Service.DeleteReservation hotelID reservationID with
  | (.error err, s1) =>
    if err.message == "hotel not found" || err.message == "reservation not found" then (404, s1)
    else (500, s1)
  | (.ok (), s1) => (204, s1)

/-- Create endpoint (`ReservationHandler.CreateReservation`): the status code, the
reservation sent back if any, and the ledger after the call. `body` is the decoded request
body, `none` when decoding fails; 201 is `StatusCreated`, 400 `StatusBadRequest`. -/
def ReservationHandler.CreateReservation (Service : ReservationService) (hotelID : String)
    (body : Option CreateReservationRequest) (g : String) (now : Time) :
    Nat × Option Reservation × ReservationService :=
  match body with
  | none => (400, none, Service)
  | some req =>
    if req.CustomerName == "" || req.StartDate == "" || req.EndDate == "" then
      (400, none, Service)
    else
      match Service.CreateReservation hotelID req g now with
      | (.error err, s1) =>
        if err.message == "hotel not found" then (404, none, s1)
        else if err.message == "reservation dates overlap with an existing booking" then
          (400, none, s1)
        else (400, none, s1)
      | (.ok reservation, s1) => (201, some reservation, s1)

/-- Update endpoint (`ReservationHandler.UpdateReservation`): the status code, the
reservation sent back if any, and the ledger after the call; 200 is `StatusOK`. -/
def ReservationHandler.UpdateReservation (Service : ReservationService)
    (hotelID reservationID : String) (body : Option UpdateReservationRequest) (now : Time) :
    Nat × Option Reservation × ReservationService :=
  match body with
  | none => (400, none, Service)
  | some req =>
    if req.CustomerName == "" || req.StartDate == "" || req.EndDate == "" then
      (400, none, Service)
    else
      match Service.UpdateReservation hotelID reservationID req now with
      | (.error err, s1) =>
        if err.message == "hotel not found" || err.message == "reservation not found" then
          (404, none, s1)
        else if err.message == "reservation dates overlap with an existing booking" then
          (400, none, s1)
        else (400, none, s1)
      | (.ok reservation, s1) => (200, some reservation, s1)

/-! ## services: hotel search -/

/-- A `float64` search parameter: not-a-number, an infinity, or a finite value. The rates
and ratings of a hotel are finite (they are decoded from JSON numbers). -/
inductive Float64 where
  | nan
  | negInf
  | posInf
  | fin (q : Rat)
deriving DecidableEq

/-- The comparison `a < b` on `float64`; false whenever an operand is not a number. -/
def Float64.lt : Float64 → Float64 → Bool
  | .nan, _ => false
  | _, .nan => false
  | .negInf, .negInf => false
  | .negInf, _ => true
  | _, .negInf => false
  | .posInf, _ => false
  | .fin _, .posInf => true
  | .fin a, .fin b => decide (a < b)

/-- The comparison `a > b` on `float64`. -/
def Float64.gt (a b : Float64) : Bool := Float64.lt b a

/-- The functions of package `strings` that the search uses, taken as given. -/
structure Strings where
  ToLower : String → String
  Contains : String → String → Bool
  EqualFold : String → String → Bool

/-- Search parameters (`models.SearchParams`); `Limit` and `Offset` are values of type `int`. -/
structure SearchParams where
  Name : String
  City : String
  CountryCode : String
  MinRate : Float64
  MaxRate : Float64
  MinRating : Float64
  MaxRating : Float64
  AmenityMask : Int
  Limit : Int
  Offset : Int

/-- Largest value of type `int` (64 bits). -/
def maxInt : Int := 9223372036854775807

/-- Result of an `int` addition or other operation: the value wrapped to 64 bits,
two's complement. -/
def wrapInt (x : Int) : Int :=
  (x + 9223372036854775808) % 18446744073709551616 - 9223372036854775808

/-- One round of the filter loop of `SearchHotels` (lines 67-105): true when the hotel
passes every filter and is appended to the results. -/
def passesFilters (lib : Strings) (params : SearchParams) (hotel : Hotel) : Bool :=
  if params.Name != "" &&
      !(lib.Contains (lib.ToLower hotel.Name) (lib.ToLower params.Name)) then false
  else if params.City != "" && !(lib.EqualFold hotel.City params.City) then false
  else if params.CountryCode != "" && hotel.CountryCode != params.CountryCode then false
  else if Float64.gt params.MinRate (.fin 0) &&
      Float64.lt (.fin hotel.LowRate) params.MinRate then false
  else if Float64.gt params.MaxRate (.fin 0) &&
      Float64.gt (.fin hotel.HighRate) params.MaxRate then false
  else if Float64.gt params.MinRating (.fin 0) &&
      Float64.lt (.fin hotel.HotelRating) params.MinRating then false
  else if Float64.gt params.MaxRating (.fin 0) &&
      Float64.gt (.fin hotel.HotelRating) params.MaxRating then false
  else if decide (params.AmenityMask > 0) &&
      Int.land hotel.AmenityMask params.AmenityMask != params.AmenityMask then false
  else true

/-- The slice expression `xs[low:high]`; `none` is the run-time panic for bounds that do
not satisfy `0 <= low <= high <= len(xs)`. (The limit of `high` is the capacity, which is
at least the length; the search never passes a `high` above the length.) -/
def sliceExpr (xs : List Hotel) (low high : Int) : Option (List Hotel) :=
  if 0 ≤ low ∧ low ≤ high ∧ high ≤ (xs.length : Int) then
    some ((xs.take high.toNat).drop low.toNat)
  else none

/-- Hotel search (`HotelService.SearchHotels`): filters hotels based on search parameters
and returns one page of them; `none` is a run-time panic. -/
def HotelService.SearchHotels (s : HotelService) (lib : Strings) (params : SearchParams) :
    Option (List Hotel) :=
  let results := s.Hotels.filter (passesFilters lib params)
  let limit : Int := if params.Limit ≤ 0 then 20 else params.Limit
  let offset : Int := if params.Offset < 0 then 0 else params.Offset
  let end0 := wrapInt (offset + limit)
  let end1 : Int := if end0 > (results.length : Int) then (results.length : Int) else end0
  if offset < (results.length : Int) then sliceExpr results offset end1
  else some []

/-! ## handlers: pagination parameters -/

/-- Value of a non-empty string of ASCII digits. -/
def digitsValue (ds : List Char) : Option Nat :=
  if ds.isEmpty || !(ds.all isDigit) then none
  else some (ds.foldl (fun acc c => acc * 10 + digitVal c) 0)

/-- Decimal integer parser (`strconv.Atoi`): an optional sign, at least one digit, the
value within the range of `int`; `none` is the error result. -/
def Atoi (s : String) : Option Int :=
  match s.data with
  | '-' :: ds =>
    match digitsValue ds with
    | some n => if (n : Int) ≤ maxInt + 1 then some (-(n : Int)) else none
    | none => none
  | '+' :: ds =>
    match digitsValue ds with
    | some n => if (n : Int) ≤ maxInt then some (n : Int) else none
    | none => none
  | ds =>
    match digitsValue ds with
    | some n => if (n : Int) ≤ maxInt then some (n : Int) else none
    | none => none

/-- Pagination part of `parseSearchParams` (lines 94-109): `Limit` and `Offset` from the
query values `limit` and `offset`, each `""` when the query does not carry it. -/
def parsePagination (limitParam offsetParam : String) : Int × Int :=
  let limit : Int :=
    if limitParam != "" then
      match Atoi limitParam with
      | some val => if val > 0 then val else 20
      | none => 20
    else 20
  let offset : Int :=
    if offsetParam != "" then
      match Atoi offsetParam with
      | some val => if val ≥ 0 then val else 0
      | none => 0
    else 0
  (limit, offset)

/-! ## Sample data of the search -/

/-- The functions of package `strings` restricted to ASCII letters. -/
def asciiStrings : Strings :=
  { ToLower := fun s => String.mk (s.data.map Char.toLower)
    Contains := fun s sub => s.data.tails.any (fun t => sub.data.isPrefixOf t)
    EqualFold := fun a b => a.data.map Char.toLower == b.data.map Char.toLower }

/-- A hotel with an id and a country code. -/
def countryHotel (id country : String) : Hotel :=
  { ID := id, Name := "", City := "", CountryCode := country, LowRate := 0, HighRate := 0,
    HotelRating := 0, AmenityMask := 0 }

/-- A catalog of four hotels, three of them in `US`. -/
def searchCatalog : HotelService :=
  { Hotels := [countryHotel "H1" "US", countryHotel "H2" "FR", countryHotel "H3" "US",
               countryHotel "H4" "US"] }

/-- Search parameters with no filter other than the country code. -/
def pageParams (country : String) (limit offset : Int) : SearchParams :=
  { Name := "", City := "", CountryCode := country, MinRate := .fin 0, MaxRate := .fin 0,
    MinRating := .fin 0, MaxRating := .fin 0, AmenityMask := 0, Limit := limit,
    Offset := offset }

/-- The limit in force: `params.Limit` when positive, else the default 20. -/
def effectiveLimit (params : SearchParams) : Int :=
  if params.Limit > 0 then params.Limit else 20

/-- The offset in force: `params.Offset` when not negative, else 0. -/
def effectiveOffset (params : SearchParams) : Int :=
  if params.Offset ≥ 0 then params.Offset else 0

/-- The hotels of the catalog, in catalog order, that pass every active filter. -/
def filteredHotels (s : HotelService) (lib : Strings) (params : SearchParams) : List Hotel :=
  s.Hotels.filter (passesFilters lib params)

/-! ## Predicates used in the statements and proofs -/

/-- The existing reservation `r` blocks the range `[s, e]` in a scan that excludes `ex`. -/
def Blocks (s e : Time) (ex : String) (r : Reservation) : Prop :=
  r.ID ≠ ex ∧ ∃ es ee, ParseDate r.StartDate = some es ∧ ParseDate r.EndDate = some ee ∧
    IsOverlapping s e es ee = true

/-- The entry written by an update over `r`. -/
def updatedEntry (r : Reservation) (req : UpdateReservationRequest) (now : Time) : Reservation :=
  { r with CustomerName := req.CustomerName, StartDate := req.StartDate,
           EndDate := req.EndDate, UpdatedAt := now }

/-- Two entries of one hotel carry different ids and ranges that the overlap test keeps apart. -/
def Apart (a b : Reservation) : Prop :=
  a.ID ≠ b.ID ∧ ∀ s1 e1 s2 e2, ParseDate a.StartDate = some s1 → ParseDate a.EndDate = some e1 →
    ParseDate b.StartDate = some s2 → ParseDate b.EndDate = some e2 →
    IsOverlapping s1 e1 s2 e2 = false

/-- A stored entry is well formed: its id is a generated one, it names the hotel it is
stored under, and its dates parse to a non-empty range. -/
def WellFormed (hs : HotelService) (issued : List String) (h : String) (r : Reservation) : Prop :=
  r.ID ≠ "" ∧ r.ID ∈ issued ∧ r.HotelID = h ∧ (hs.GetHotelByID h).isSome = true ∧
    ∃ s e, ParseDate r.StartDate = some s ∧ ParseDate r.EndDate = some e ∧ s < e

/-- Invariant of the ledger under sequential runs. -/
def Inv (hs : HotelService) (w : World) : Prop :=
  w.svc.hotelService = hs ∧
    ∀ h rs, w.svc.reservations h = some rs →
      (∀ r ∈ rs, WellFormed hs w.issued h r) ∧ rs.Pairwise Apart

/-- The sample ledger after Alice's stay and a later stay of Bob, `2024-03-06` to `2024-03-10`. -/
def aliceBobWorld : World :=
  aliceWorld.exec (.create "H1" (mkCreate "Bob" "2024-03-06" "2024-03-10") bobID t1)

/-- The ledger left by the concurrent creates of Alice's and Carol's overlapping stays on
`H1`, started on the empty ledger, when both overlap checks run before either append. -/
def raceLedger : ReservationService :=
  (runTwo (NewReservationService sampleCatalog)
    (.start "H1" (mkCreate "Alice" "2024-03-01" "2024-03-05") aliceID t0)
    (.start "H1" (mkCreate "Carol" "2024-03-04" "2024-03-06") carolID t0)
    [true, false, true, false]).2.2

/-- The id is spent for hotel `h`: the hotel is in the catalog, the id has been generated,
and no reservation of `h` carries it. -/
def Gone (h id : String) (w : World) : Prop :=
  (w.svc.hotelService.GetHotelByID h).isSome = true ∧ id ∈ w.issued ∧
    ∀ rs, w.svc.reservations h = some rs → ∀ x ∈ rs, x.ID ≠ id

/-- The id has been generated and no reservation of any hotel carries it. -/
def Absent (id : String) (w : World) : Prop :=
  id ∈ w.issued ∧ ∀ k rs, w.svc.reservations k = some rs → ∀ x ∈ rs, x.ID ≠ id

/-- Reservations stored under different hotels carry different ids. -/
def CrossDistinct (w : World) : Prop :=
  ∀ h1 h2 rs1 rs2, w.svc.reservations h1 = some rs1 → w.svc.reservations h2 = some rs2 →
    ∀ a ∈ rs1, ∀ b ∈ rs2, a.ID = b.ID → h1 = h2

/-- Request of Dana's create calls in the scenarios. -/
def danaCreate (startDate endDate : String) : CreateReservationRequest :=
  mkCreate "Dana" startDate endDate

/-! ## Auxiliary facts about the loops -/

theorem isOverlapping_iff (s1 e1 s2 e2 : Nat) :
    IsOverlapping s1 e1 s2 e2 = true ↔ s1 ≤ e2 ∧ s2 ≤ e1 := by
  unfold IsOverlapping
  simp only [Bool.and_eq_true, Bool.or_eq_true, decide_eq_true_eq]
  change (s1 < e2 ∨ s1 = e2) ∧ (e1 > s2 ∨ e1 = s2) ↔ s1 ≤ e2 ∧ s2 ≤ e1
  constructor
  · rintro ⟨h1, h2⟩; omega
  · rintro ⟨h1, h2⟩; omega

theorem isOverlapping_false_iff (s1 e1 s2 e2 : Nat) :
    IsOverlapping s1 e1 s2 e2 = false ↔ e2 < s1 ∨ e1 < s2 := by
  rw [← Bool.not_eq_true, isOverlapping_iff]
  omega

theorem overlapScan_true_iff (s e : Time) (ex : String) (rs : List Reservation) :
    overlapScan s e ex rs = true ↔ ∃ r ∈ rs, Blocks s e ex r := by
  induction rs with
  | nil => simp [overlapScan]
  | cons r rest ih =>
    simp only [overlapScan, List.mem_cons, exists_eq_or_imp]
    by_cases hid : r.ID = ex
    · simp [hid, ih, Blocks]
    · rw [if_neg hid]
      cases hs : ParseDate r.StartDate with
      | none => simp [ih, Blocks, hs]
      | some es =>
        cases he : ParseDate r.EndDate with
        | none => simp [ih, Blocks, he]
        | some ee =>
          by_cases ho : IsOverlapping s e es ee = true
          · simp [ho, Blocks, hs, he, hid]
          · simp [ho, Blocks, hs, he, ih]

theorem overlapScan_false_iff (s e : Time) (ex : String) (rs : List Reservation) :
    overlapScan s e ex rs = false ↔ ∀ r ∈ rs, ¬ Blocks s e ex r := by
  rw [← Bool.not_eq_true, overlapScan_true_iff]
  simp

theorem validate_ok_iff (sv : ReservationService) (h sd ed : String) (a b : Time) :
    sv.validate h sd ed = .ok (a, b) ↔
      (sv.hotelService.GetHotelByID h).isSome = true ∧ ParseDate sd = some a ∧
        ParseDate ed = some b ∧ a < b := by
  unfold ReservationService.validate
  cases sv.hotelService.GetHotelByID h with
  | none => simp
  | some x =>
    cases ParseDate sd with
    | none => simp
    | some a1 =>
      cases ParseDate ed with
      | none => simp
      | some b1 =>
        by_cases hlt : b1 > a1
        · simp only [hlt, not_true_eq_false, if_false, Except.ok.injEq, Prod.mk.injEq,
            Option.isSome_some, Option.some.injEq, true_and]
          constructor
          · rintro ⟨rfl, rfl⟩; exact ⟨rfl, rfl, hlt⟩
          · rintro ⟨rfl, rfl, _⟩; exact ⟨rfl, rfl⟩
        · simp only [hlt, not_false_eq_true, if_true, Option.isSome_some, Option.some.injEq,
            true_and]
          constructor
          · intro hc; cases hc
          · rintro ⟨rfl, rfl, hc⟩; exact absurd hc hlt

theorem updateScan_some (rid : String) (req : UpdateReservationRequest) (now : Time)
    (rs rs1 : List Reservation) (u : Reservation)
    (h : updateScan rid req now rs = some (rs1, u)) :
    ∃ pre r post, rs = pre ++ r :: post ∧ (∀ a ∈ pre, a.ID ≠ rid) ∧ r.ID = rid ∧
      u = updatedEntry r req now ∧ rs1 = pre ++ u :: post := by
  induction rs generalizing rs1 with
  | nil => simp [updateScan] at h
  | cons r rest ih =>
    simp only [updateScan] at h
    by_cases hid : r.ID = rid
    · rw [if_pos hid] at h
      simp only [Option.some.injEq, Prod.mk.injEq] at h
      obtain ⟨h1, h2⟩ := h
      exact ⟨[], r, rest, rfl, by simp, hid, h2.symm, by simp [← h1, ← h2]⟩
    · rw [if_neg hid] at h
      cases hrec : updateScan rid req now rest with
      | none => simp [hrec] at h
      | some p =>
        obtain ⟨rest1, u1⟩ := p
        simp only [hrec, Option.some.injEq, Prod.mk.injEq] at h
        obtain ⟨h1, h2⟩ := h
        subst h2
        obtain ⟨pre, r0, post, e1, e2, e3, e4, e5⟩ := ih rest1 hrec
        refine ⟨r :: pre, r0, post, by simp [e1], ?_, e3, e4, by simp [← h1, e5]⟩
        intro a ha
        rcases List.mem_cons.1 ha with rfl | ha
        · exact hid
        · exact e2 a ha

theorem updateScan_none_iff (rid : String) (req : UpdateReservationRequest) (now : Time)
    (rs : List Reservation) :
    updateScan rid req now rs = none ↔ ∀ a ∈ rs, a.ID ≠ rid := by
  induction rs with
  | nil => simp [updateScan]
  | cons r rest ih =>
    simp only [updateScan, List.mem_cons, forall_eq_or_imp]
    by_cases hid : r.ID = rid
    · simp [hid]
    · rw [if_neg hid]
      cases hrec : updateScan rid req now rest with
      | none => rw [hrec] at ih; simpa [hid] using ih.1 rfl
      | some p =>
        rw [hrec] at ih
        simp only [false_iff, reduceCtorEq] at ih ⊢
        intro hcon
        exact ih hcon.2

theorem deleteScan_some (rid : String) (rs rs1 : List Reservation)
    (h : deleteScan rid rs = some rs1) :
    ∃ pre r post, rs = pre ++ r :: post ∧ (∀ a ∈ pre, a.ID ≠ rid) ∧ r.ID = rid ∧
      rs1 = pre ++ post := by
  induction rs generalizing rs1 with
  | nil => simp [deleteScan] at h
  | cons r rest ih =>
    simp only [deleteScan] at h
    by_cases hid : r.ID = rid
    · rw [if_pos hid] at h
      simp only [Option.some.injEq] at h
      exact ⟨[], r, rest, rfl, by simp, hid, by simp [h]⟩
    · rw [if_neg hid] at h
      cases hrec : deleteScan rid rest with
      | none => simp [hrec] at h
      | some rest1 =>
        simp only [hrec, Option.some.injEq] at h
        obtain ⟨pre, r0, post, e1, e2, e3, e4⟩ := ih rest1 hrec
        refine ⟨r :: pre, r0, post, by simp [e1], ?_, e3, by simp [← h, e4]⟩
        intro a ha
        rcases List.mem_cons.1 ha with rfl | ha
        · exact hid
        · exact e2 a ha

theorem deleteScan_none_iff (rid : String) (rs : List Reservation) :
    deleteScan rid rs = none ↔ ∀ a ∈ rs, a.ID ≠ rid := by
  induction rs with
  | nil => simp [deleteScan]
  | cons r rest ih =>
    simp only [deleteScan, List.mem_cons, forall_eq_or_imp]
    by_cases hid : r.ID = rid
    · simp [hid]
    · rw [if_neg hid]
      cases hrec : deleteScan rid rest with
      | none => rw [hrec] at ih; simpa [hid] using ih.1 rfl
      | some p =>
        rw [hrec] at ih
        simp only [false_iff, reduceCtorEq] at ih ⊢
        intro hcon
        exact ih hcon.2

/-! ## The invariant of sequential runs -/

theorem isOverlapping_comm (s1 e1 s2 e2 : Nat) :
    IsOverlapping s1 e1 s2 e2 = IsOverlapping s2 e2 s1 e1 := by
  rw [Bool.eq_iff_iff, isOverlapping_iff, isOverlapping_iff]
  exact And.comm

theorem apart_of_not_blocks {a u : Reservation} {ex : String} {s e : Time}
    (hne : a.ID ≠ u.ID) (hex : a.ID ≠ ex) (hs : ParseDate u.StartDate = some s)
    (he : ParseDate u.EndDate = some e) (hb : ¬ Blocks s e ex a) : Apart a u ∧ Apart u a := by
  have key : ∀ es ee, ParseDate a.StartDate = some es → ParseDate a.EndDate = some ee →
      IsOverlapping s e es ee = false := by
    intro es ee h1 h2
    cases hov : IsOverlapping s e es ee with
    | false => rfl
    | true => exact absurd ⟨hex, es, ee, h1, h2, hov⟩ hb
  refine ⟨⟨hne, ?_⟩, ⟨fun h => hne h.symm, ?_⟩⟩
  · intro s1 e1 s2 e2 h1 h2 h3 h4
    rw [hs] at h3; rw [he] at h4
    cases h3; cases h4
    rw [isOverlapping_comm]
    exact key s1 e1 h1 h2
  · intro s1 e1 s2 e2 h1 h2 h3 h4
    rw [hs] at h1; rw [he] at h2
    cases h1; cases h2
    exact key s2 e2 h3 h4

theorem wellFormed_mono {hs : HotelService} {issued : List String} {h : String}
    {r : Reservation} (g : String) (hw : WellFormed hs issued h r) :
    WellFormed hs (g :: issued) h r :=
  ⟨hw.1, List.mem_cons_of_mem _ hw.2.1, hw.2.2⟩

theorem createCheck_ok_iff (sv : ReservationService) (h : String)
    (req : CreateReservationRequest) (g : String) (now : Time) (r : Reservation) :
    sv.createCheck h req g now = .ok r ↔
      ∃ a b, sv.validate h req.StartDate req.EndDate = .ok (a, b) ∧
        sv.hasOverlappingReservations h a b "" = false ∧
        r = { ID := g, HotelID := h, CustomerName := req.CustomerName,
              StartDate := req.StartDate, EndDate := req.EndDate,
              CreatedAt := now, UpdatedAt := now } := by
  unfold ReservationService.createCheck
  cases hv : sv.validate h req.StartDate req.EndDate with
  | error e => simp
  | ok p =>
    obtain ⟨a, b⟩ := p
    cases ho : sv.hasOverlappingReservations h a b "" with
    | true =>
      simp only [ho, if_true, reduceCtorEq, Except.ok.injEq, Prod.mk.injEq, false_iff,
        not_exists, not_and]
      rintro a1 b1 ⟨rfl, rfl⟩ h2
      rw [ho] at h2; cases h2
    | false =>
      simp only [ho, Bool.false_eq_true, if_false, Except.ok.injEq, Prod.mk.injEq]
      constructor
      · intro hr; exact ⟨a, b, ⟨rfl, rfl⟩, ho, hr.symm⟩
      · rintro ⟨a1, b1, ⟨rfl, rfl⟩, _, hr⟩; exact hr.symm

theorem createStore_reservations (sv : ReservationService) (h : String) (r : Reservation)
    (k : String) :
    (sv.createStore h r).reservations k =
      if k = h then some ((sv.reservations h).getD [] ++ [r]) else sv.reservations k := by
  unfold ReservationService.createStore
  cases hk : sv.reservations h with
  | none =>
    by_cases hkh : k = h
    · simp [ReservationService.setReservations, hkh]
    · simp [ReservationService.setReservations, hkh]
  | some rs =>
    by_cases hkh : k = h
    · simp [ReservationService.setReservations, hkh, hk]
    · simp [ReservationService.setReservations, hkh]

theorem createStore_hotelService (sv : ReservationService) (h : String) (r : Reservation) :
    (sv.createStore h r).hotelService = sv.hotelService := by
  unfold ReservationService.createStore
  cases sv.reservations h <;> rfl

theorem exec_create_error (w : World) (h : String) (req : CreateReservationRequest)
    (g : String) (now : Time) (e : Error) (hc : w.svc.createCheck h req g now = .error e) :
    w.exec (.create h req g now) = w := by
  simp [World.exec, ReservationService.CreateReservation, hc]

theorem exec_create_ok (w : World) (h : String) (req : CreateReservationRequest)
    (g : String) (now : Time) (r : Reservation) (hc : w.svc.createCheck h req g now = .ok r) :
    w.exec (.create h req g now) = { svc := w.svc.createStore h r, issued := g :: w.issued } := by
  simp [World.exec, ReservationService.CreateReservation, hc]

theorem updateCheck_ok_iff (sv : ReservationService) (h rid : String)
    (req : UpdateReservationRequest) :
    sv.updateCheck h rid req = .ok () ↔
      ∃ a b, sv.validate h req.StartDate req.EndDate = .ok (a, b) ∧
        sv.hasOverlappingReservations h a b rid = false := by
  unfold ReservationService.updateCheck
  cases hv : sv.validate h req.StartDate req.EndDate with
  | error e => simp
  | ok p =>
    obtain ⟨a, b⟩ := p
    cases ho : sv.hasOverlappingReservations h a b rid with
    | true =>
      simp only [ho, if_true, reduceCtorEq, Except.ok.injEq, Prod.mk.injEq, false_iff,
        not_exists, not_and]
      rintro a1 b1 ⟨rfl, rfl⟩ h2
      rw [ho] at h2; cases h2
    | false =>
      simp only [ho, Bool.false_eq_true, if_false, Except.ok.injEq, Prod.mk.injEq, true_iff]
      exact ⟨a, b, ⟨rfl, rfl⟩, ho⟩

theorem hasOverlapping_false_iff (sv : ReservationService) (h : String) (a b : Time)
    (ex : String) :
    sv.hasOverlappingReservations h a b ex = false ↔
      ∀ rs, sv.reservations h = some rs → ∀ r ∈ rs, ¬ Blocks a b ex r := by
  unfold ReservationService.hasOverlappingReservations
  cases hr : sv.reservations h with
  | none => simp
  | some rs => simp [overlapScan_false_iff]

theorem inv_init (hs : HotelService) : Inv hs (World.init hs) := by
  refine ⟨rfl, ?_⟩
  intro h rs hrs
  simp [World.init, NewReservationService] at hrs

theorem inv_create {hs : HotelService} {w : World} (hinv : Inv hs w) (h : String)
    (req : CreateReservationRequest) (g : String) (now : Time)
    (hfresh : g ≠ "" ∧ g ∉ w.issued) : Inv hs (w.exec (.create h req g now)) := by
  cases hc : w.svc.createCheck h req g now with
  | error e => rw [exec_create_error w h req g now e hc]; exact hinv
  | ok r =>
    rw [exec_create_ok w h req g now r hc]
    obtain ⟨a, b, hv, hov, hr⟩ := (createCheck_ok_iff _ _ _ _ _ _).1 hc
    obtain ⟨hcat, hpa, hpb, hab⟩ := (validate_ok_iff _ _ _ _ _ _).1 hv
    obtain ⟨hhs, hall⟩ := hinv
    refine ⟨by rw [createStore_hotelService]; exact hhs, ?_⟩
    intro k rs hrs
    simp only [createStore_reservations] at hrs
    by_cases hk : k = h
    · subst hk
      rw [if_pos rfl] at hrs
      simp only [Option.some.injEq] at hrs
      subst hrs
      have hold : (∀ x ∈ (w.svc.reservations k).getD [], WellFormed hs w.issued k x) ∧
          ((w.svc.reservations k).getD []).Pairwise Apart := by
        cases hq : w.svc.reservations k with
        | none => simp
        | some old => simpa using hall k old hq
      have hnb : ∀ x ∈ (w.svc.reservations k).getD [], ¬ Blocks a b "" x := by
        cases hq : w.svc.reservations k with
        | none => simp
        | some old => simpa using (hasOverlapping_false_iff _ _ _ _ _).1 hov old hq
      have hwr : WellFormed hs (g :: w.issued) k r := by
        subst hr
        exact ⟨hfresh.1, List.mem_cons_self _ _, rfl, by rw [← hhs]; exact hcat,
          a, b, hpa, hpb, hab⟩
      constructor
      · intro x hx
        rcases List.mem_append.1 hx with hx | hx
        · exact wellFormed_mono g (hold.1 x hx)
        · rw [List.mem_singleton] at hx
          subst hx
          exact hwr
      · rw [List.pairwise_append]
        refine ⟨hold.2, List.pairwise_singleton _ _, ?_⟩
        intro x hx y hy
        rw [List.mem_singleton] at hy
        subst hy
        have hxw := hold.1 x hx
        have hne : x.ID ≠ y.ID := by
          intro heq
          apply hfresh.2
          have : y.ID = g := by rw [hr]
          rw [← this, ← heq]
          exact hxw.2.1
        have hsd : ParseDate y.StartDate = some a := by rw [hr]; exact hpa
        have hed : ParseDate y.EndDate = some b := by rw [hr]; exact hpb
        exact (apart_of_not_blocks hne hxw.1 hsd hed (hnb x hx)).1
    · rw [if_neg hk] at hrs
      obtain ⟨h1, h2⟩ := hall k rs hrs
      exact ⟨fun x hx => wellFormed_mono g (h1 x hx), h2⟩

theorem updateStore_found (sv : ReservationService) (h rid : String)
    (req : UpdateReservationRequest) (now : Time) (rs rs1 : List Reservation) (u : Reservation)
    (hq : sv.reservations h = some rs) (hu : updateScan rid req now rs = some (rs1, u)) :
    sv.updateStore h rid req now = (.ok u, sv.setReservations h rs1) := by
  simp [ReservationService.updateStore, hq, hu]

theorem updateStore_missing (sv : ReservationService) (h rid : String)
    (req : UpdateReservationRequest) (now : Time)
    (hq : ∀ rs, sv.reservations h = some rs → updateScan rid req now rs = none) :
    sv.updateStore h rid req now = (.error .reservationNotFound, sv) := by
  unfold ReservationService.updateStore
  cases hr : sv.reservations h with
  | none => rfl
  | some rs => simp [hq rs hr]

theorem update_of_check_error (sv : ReservationService) (h rid : String)
    (req : UpdateReservationRequest) (now : Time) (e : Error)
    (hc : sv.updateCheck h rid req = .error e) :
    sv.UpdateReservation h rid req now = (.error e, sv) := by
  simp [ReservationService.UpdateReservation, hc]

theorem update_of_check_ok (sv : ReservationService) (h rid : String)
    (req : UpdateReservationRequest) (now : Time)
    (hc : sv.updateCheck h rid req = .ok ()) :
    sv.UpdateReservation h rid req now = sv.updateStore h rid req now := by
  simp [ReservationService.UpdateReservation, hc]

theorem delete_no_hotel (sv : ReservationService) (h rid : String)
    (hcat : sv.hotelService.GetHotelByID h = none) :
    sv.DeleteReservation h rid = (.error .hotelNotFound, sv) := by
  simp [ReservationService.DeleteReservation, hcat]

theorem delete_found (sv : ReservationService) (h rid : String) (rs rs1 : List Reservation)
    (hcat : (sv.hotelService.GetHotelByID h).isSome = true)
    (hq : sv.reservations h = some rs) (hd : deleteScan rid rs = some rs1) :
    sv.DeleteReservation h rid = (.ok (), sv.setReservations h rs1) := by
  obtain ⟨hotel, hh⟩ := Option.isSome_iff_exists.1 hcat
  simp [ReservationService.DeleteReservation, hh, hq, hd]

theorem delete_missing (sv : ReservationService) (h rid : String)
    (hcat : (sv.hotelService.GetHotelByID h).isSome = true)
    (hq : ∀ rs, sv.reservations h = some rs → deleteScan rid rs = none) :
    sv.DeleteReservation h rid = (.error .reservationNotFound, sv) := by
  obtain ⟨hotel, hh⟩ := Option.isSome_iff_exists.1 hcat
  unfold ReservationService.DeleteReservation
  rw [hh]
  cases hr : sv.reservations h with
  | none => rfl
  | some rs => simp [hq rs hr]

theorem setReservations_inv {hs : HotelService} {w : World} (hinv : Inv hs w) (h : String)
    (rs1 : List Reservation) (hwf : ∀ r ∈ rs1, WellFormed hs w.issued h r)
    (hpw : rs1.Pairwise Apart) :
    Inv hs { svc := w.svc.setReservations h rs1, issued := w.issued } := by
  obtain ⟨hhs, hall⟩ := hinv
  refine ⟨hhs, ?_⟩
  intro k ks hks
  simp only [ReservationService.setReservations] at hks
  by_cases hk : k = h
  · subst hk
    rw [if_pos rfl] at hks
    simp only [Option.some.injEq] at hks
    subst hks
    exact ⟨hwf, hpw⟩
  · rw [if_neg hk] at hks
    exact hall k ks hks

theorem updatedEntry_wellFormed {hs : HotelService} {issued : List String} {h : String}
    {r : Reservation} (req : UpdateReservationRequest) (now : Time) {a b : Time}
    (hw : WellFormed hs issued h r) (hpa : ParseDate req.StartDate = some a)
    (hpb : ParseDate req.EndDate = some b) (hab : a < b) :
    WellFormed hs issued h (updatedEntry r req now) :=
  ⟨hw.1, hw.2.1, hw.2.2.1, hw.2.2.2.1, a, b, hpa, hpb, hab⟩

theorem inv_update {hs : HotelService} {w : World} (hinv : Inv hs w) (h rid : String)
    (req : UpdateReservationRequest) (now : Time) :
    Inv hs (w.exec (.update h rid req now)) := by
  simp only [World.exec]
  cases hc : w.svc.updateCheck h rid req with
  | error e => rw [update_of_check_error _ _ _ _ _ e hc]; exact hinv
  | ok u0 =>
    rw [update_of_check_ok _ _ _ _ _ hc]
    obtain ⟨a, b, hv, hov⟩ := (updateCheck_ok_iff _ _ _ _).1 hc
    obtain ⟨hcat, hpa, hpb, hab⟩ := (validate_ok_iff _ _ _ _ _ _).1 hv
    by_cases hmiss : ∀ rs, w.svc.reservations h = some rs → updateScan rid req now rs = none
    · rw [updateStore_missing _ _ _ _ _ hmiss]; exact hinv
    · simp only [not_forall] at hmiss
      obtain ⟨rs, hq, hne⟩ := hmiss
      cases hu : updateScan rid req now rs with
      | none => exact absurd hu hne
      | some p =>
        obtain ⟨rs1, u⟩ := p
        rw [updateStore_found _ _ _ _ _ rs rs1 u hq hu]
        obtain ⟨pre, r, post, e1, e2, e3, e4, e5⟩ := updateScan_some _ _ _ _ _ _ hu
        obtain ⟨hwf, hpw⟩ := hinv.2 h rs hq
        have hnb := (hasOverlapping_false_iff _ _ _ _ _).1 hov rs hq
        subst e1
        have hr : r ∈ pre ++ r :: post := by simp
        have huw : WellFormed hs w.issued h u := by
          rw [e4]; exact updatedEntry_wellFormed req now (hwf r hr) hpa hpb hab
        have huid : u.ID = rid := by rw [e4]; exact e3
        have husd : ParseDate u.StartDate = some a := by rw [e4]; exact hpa
        have hued : ParseDate u.EndDate = some b := by rw [e4]; exact hpb
        have hothers : ∀ x ∈ pre ++ r :: post, x.ID ≠ rid → Apart x u ∧ Apart u x := by
          intro x hx hxid
          exact apart_of_not_blocks (by rw [huid]; exact hxid) hxid husd hued (hnb x hx)
        rw [List.pairwise_append, List.pairwise_cons] at hpw
        obtain ⟨hp1, ⟨hp2, hp3⟩, hp4⟩ := hpw
        apply setReservations_inv hinv
        · intro x hx
          rw [e5] at hx
          rcases List.mem_append.1 hx with hx | hx
          · exact hwf x (by simp [hx])
          · rcases List.mem_cons.1 hx with hx | hx
            · rw [hx]; exact huw
            · exact hwf x (by simp [hx])
        · rw [e5, List.pairwise_append, List.pairwise_cons]
          refine ⟨hp1, ⟨?_, hp3⟩, ?_⟩
          · intro y hy
            have hyid : y.ID ≠ rid := by
              have := (hp2 y hy).1
              rw [e3] at this
              exact fun hc => this hc.symm
            exact (hothers y (by simp [hy]) hyid).2
          · intro x hx y hy
            rcases List.mem_cons.1 hy with hy | hy
            · rw [hy]
              exact (hothers x (by simp [hx]) (e2 x hx)).1
            · exact hp4 x hx y (List.mem_cons_of_mem _ hy)

theorem inv_delete {hs : HotelService} {w : World} (hinv : Inv hs w) (h rid : String) :
    Inv hs (w.exec (.delete h rid)) := by
  simp only [World.exec]
  cases hcat : w.svc.hotelService.GetHotelByID h with
  | none => rw [delete_no_hotel _ _ _ hcat]; exact hinv
  | some hotel =>
    have hcat1 : (w.svc.hotelService.GetHotelByID h).isSome = true := by simp [hcat]
    by_cases hmiss : ∀ rs, w.svc.reservations h = some rs → deleteScan rid rs = none
    · rw [delete_missing _ _ _ hcat1 hmiss]; exact hinv
    · simp only [not_forall] at hmiss
      obtain ⟨rs, hq, hne⟩ := hmiss
      cases hd : deleteScan rid rs with
      | none => exact absurd hd hne
      | some rs1 =>
        rw [delete_found _ _ _ rs rs1 hcat1 hq hd]
        obtain ⟨pre, r, post, e1, e2, e3, e4⟩ := deleteScan_some _ _ _ hd
        obtain ⟨hwf, hpw⟩ := hinv.2 h rs hq
        subst e1
        have hsub : List.Sublist rs1 (pre ++ r :: post) := by
          rw [e4]
          exact List.Sublist.append (List.Sublist.refl _) (List.sublist_cons_self _ _)
        exact setReservations_inv hinv h rs1 (fun x hx => hwf x (hsub.subset hx))
          (hpw.sublist hsub)

theorem reachable_inv {hs : HotelService} {w : World} (hr : Reachable hs w) : Inv hs w := by
  induction hr with
  | init => exact inv_init hs
  | step c _ hfresh ih =>
    cases c with
    | create h req g now => exact inv_create ih h req g now hfresh
    | update h rid req now => exact inv_update ih h rid req now
    | delete h rid => exact inv_delete ih h rid

theorem apart_symm {a b : Reservation} (h : Apart a b) : Apart b a := by
  refine ⟨fun e => h.1 e.symm, ?_⟩
  intro s1 e1 s2 e2 h1 h2 h3 h4
  rw [isOverlapping_comm]
  exact h.2 s2 e2 s1 e1 h3 h4 h1 h2

theorem pairwise_apart_at {rs : List Reservation} (hp : rs.Pairwise Apart) {i j : Nat}
    {a b : Reservation} (hi : rs[i]? = some a) (hj : rs[j]? = some b) (hij : i ≠ j) :
    Apart a b := by
  obtain ⟨hi1, hi2⟩ := List.getElem?_eq_some_iff.1 hi
  obtain ⟨hj1, hj2⟩ := List.getElem?_eq_some_iff.1 hj
  rw [List.pairwise_iff_getElem] at hp
  rcases Nat.lt_or_gt_of_ne hij with hlt | hgt
  · have := hp i j hi1 hj1 hlt
    rw [hi2, hj2] at this
    exact this
  · have := hp j i hj1 hi1 hgt
    rw [hi2, hj2] at this
    exact apart_symm this

theorem reachable_run {hs : HotelService} (cs : List Call) :
    ∀ {w : World}, Reachable hs w → w.FreshRun cs → Reachable hs (w.run cs) := by
  induction cs with
  | nil => intro w hr _; exact hr
  | cons c cs ih => intro w hr hf; exact ih (Reachable.step c hr hf.1) hf.2

theorem create_of_check_error (sv : ReservationService) (h : String)
    (req : CreateReservationRequest) (g : String) (now : Time) (e : Error)
    (hc : sv.createCheck h req g now = .error e) :
    sv.CreateReservation h req g now = (.error e, sv) := by
  simp [ReservationService.CreateReservation, hc]

theorem create_of_check_ok (sv : ReservationService) (h : String)
    (req : CreateReservationRequest) (g : String) (now : Time) (r : Reservation)
    (hc : sv.createCheck h req g now = .ok r) :
    sv.CreateReservation h req g now = (.ok r, sv.createStore h r) := by
  simp [ReservationService.CreateReservation, hc]

theorem hasOverlapping_true_of_blocks (sv : ReservationService) (h : String) (a b : Time)
    (ex : String) (rs : List Reservation) (r : Reservation) (hq : sv.reservations h = some rs)
    (hr : r ∈ rs) (hb : Blocks a b ex r) : sv.hasOverlappingReservations h a b ex = true := by
  unfold ReservationService.hasOverlappingReservations
  rw [hq]
  exact (overlapScan_true_iff _ _ _ _).2 ⟨r, hr, hb⟩

theorem createCheck_conflict (sv : ReservationService) (h : String)
    (req : CreateReservationRequest) (g : String) (now : Time) (a b : Time)
    (hv : sv.validate h req.StartDate req.EndDate = .ok (a, b))
    (ho : sv.hasOverlappingReservations h a b "" = true) :
    sv.createCheck h req g now = .error .overlapConflict := by
  simp [ReservationService.createCheck, hv, ho]

theorem aliceWorld_reachable : Reachable sampleCatalog aliceWorld :=
  Reachable.step _ Reachable.init ⟨by decide, by simp [World.init]⟩

theorem aliceBobWorld_reachable : Reachable sampleCatalog aliceBobWorld :=
  Reachable.step _ aliceWorld_reachable ⟨by decide, by decide⟩

/-! ## The claims -/

/-- C1 (non-overlap invariant): in every ledger reached from the empty one by create, update
and delete calls run one after the other, each succeeding or failing, with every generated id
a fresh uuid string, any two reservations at different positions of one hotel's collection
have parsed ranges `[s1,e1)` and `[s2,e2)` for which `s1 < e2` and `e1 > s2` do not both hold. -/
theorem C1_non_overlap_invariant (hs : HotelService) (w : World) (hr : Reachable hs w)
    (h : String) (rs : List Reservation) (hrs : w.svc.reservations h = some rs)
    (i j : Nat) (a b : Reservation) (hi : rs[i]? = some a) (hj : rs[j]? = some b)
    (hij : i ≠ j) (s1 e1 s2 e2 : Time)
    (hs1 : ParseDate a.StartDate = some s1) (he1 : ParseDate a.EndDate = some e1)
    (hs2 : ParseDate b.StartDate = some s2) (he2 : ParseDate b.EndDate = some e2) :
    ¬ (s1 < e2 ∧ e1 > s2) := by
  have hap := pairwise_apart_at ((reachable_inv hr).2 h rs hrs).2 hi hj hij
  have hov := hap.2 s1 e1 s2 e2 hs1 he1 hs2 he2
  rw [isOverlapping_false_iff] at hov
  rintro ⟨h1, h2⟩
  rcases hov with hov | hov
  · exact Nat.lt_asymm h1 hov
  · exact Nat.lt_asymm h2 hov

/-- Instance of C1 on the ledger holding Alice's and Bob's stays. -/
theorem C1_non_overlap_invariant_witness :
    Reachable sampleCatalog aliceBobWorld ∧
      (aliceBobWorld.svc.reservations "H1").map List.length = some 2 ∧
      ¬ (dateInstant 2024 3 1 < dateInstant 2024 3 10 ∧
          dateInstant 2024 3 5 > dateInstant 2024 3 6) :=
  ⟨aliceBobWorld_reachable, by decide,
    C1_non_overlap_invariant sampleCatalog aliceBobWorld aliceBobWorld_reachable "H1"
      [aliceStay,
       bobStay]
      (by decide) 0 1 _ _ rfl rfl (by decide) _ _ _ _ (by decide) (by decide) (by decide)
      (by decide)⟩

/-- C2 fails on the code at a shared boundary date: for the ranges
`2024-03-01..2024-03-05` and `2024-03-05..2024-03-10`, where `e1 = s2`, `IsOverlapping`
returns true in either order of the two ranges, although `s1 < e2` and `e1 > s2` do not
both hold; the comment above the function states the strict rule of the claim. -/
theorem C2_isOverlapping_true_at_boundary :
    ParseDate "2024-03-01" = some (dateInstant 2024 3 1) ∧
      ParseDate "2024-03-05" = some (dateInstant 2024 3 5) ∧
      ParseDate "2024-03-10" = some (dateInstant 2024 3 10) ∧
      IsOverlapping (dateInstant 2024 3 1) (dateInstant 2024 3 5)
        (dateInstant 2024 3 5) (dateInstant 2024 3 10) = true ∧
      ¬ (dateInstant 2024 3 1 < dateInstant 2024 3 10 ∧
          dateInstant 2024 3 5 > dateInstant 2024 3 5) ∧
      IsOverlapping (dateInstant 2024 3 5) (dateInstant 2024 3 10)
        (dateInstant 2024 3 1) (dateInstant 2024 3 5) = true ∧
      ¬ (dateInstant 2024 3 5 < dateInstant 2024 3 5 ∧
          dateInstant 2024 3 10 > dateInstant 2024 3 1) := by
  refine ⟨?_, ?_, ?_, ?_, ?_, ?_, ?_⟩ <;> decide

/-- C3 fails on the code in the scenario of the spec: after
`Create(H1, Alice, 2024-03-01, 2024-03-05)` has succeeded, Alice's range does not overlap
`[2024-03-05, 2024-03-10)` under the half-open rule, and yet
`Create(H1, Bob, 2024-03-05, 2024-03-10)` returns the overlap-conflict error and stores
nothing. -/
theorem C3_touching_create_rejected :
    (∃ r, ((World.init sampleCatalog).svc.CreateReservation "H1"
        (mkCreate "Alice" "2024-03-01" "2024-03-05") aliceID t0).1 = .ok r) ∧
      (aliceWorld.svc.GetReservationsByHotelID "H1").1 = .ok [aliceStay] ∧
      ParseDate "2024-03-05" = some (dateInstant 2024 3 5) ∧
      ParseDate "2024-03-10" = some (dateInstant 2024 3 10) ∧
      ¬ (dateInstant 2024 3 5 < dateInstant 2024 3 5 ∧
          dateInstant 2024 3 10 > dateInstant 2024 3 1) ∧
      (aliceWorld.svc.CreateReservation "H1"
        (mkCreate "Bob" "2024-03-05" "2024-03-10") bobID t1).1 = .error .overlapConflict ∧
      ((aliceWorld.svc.CreateReservation "H1"
        (mkCreate "Bob" "2024-03-05" "2024-03-10") bobID t1).2.GetReservationsByHotelID
          "H1").1 = .ok [aliceStay] := by
  refine ⟨⟨_, rfl⟩, ?_, ?_, ?_, ?_, ?_, ?_⟩ <;> decide

/-- C4 (overlap conflict on create): in every ledger reached by sequential calls, for every
catalog hotel `h` and every request whose dates parse to `start < stop`, if some stored
reservation of `h` has a parsed range `[s2,e2)` with `start < e2` and `stop > s2`, then
`CreateReservation` fails with the overlap-conflict error, whose text is
"reservation dates overlap with an existing booking". -/
theorem C4_create_overlap_conflict (hs : HotelService) (w : World) (hr : Reachable hs w)
    (h : String) (hcat : (hs.GetHotelByID h).isSome = true)
    (req : CreateReservationRequest) (start stop : Time)
    (hsd : ParseDate req.StartDate = some start) (hed : ParseDate req.EndDate = some stop)
    (hlt : stop > start)
    (rs : List Reservation) (hrs : w.svc.reservations h = some rs)
    (r : Reservation) (hmem : r ∈ rs) (s2 e2 : Time)
    (hs2 : ParseDate r.StartDate = some s2) (he2 : ParseDate r.EndDate = some e2)
    (hov : start < e2 ∧ stop > s2) (g : String) (now : Time) :
    (w.svc.CreateReservation h req g now).1 = .error .overlapConflict ∧
      Error.message .overlapConflict = "reservation dates overlap with an existing booking" := by
  obtain ⟨hhs, hall⟩ := reachable_inv hr
  obtain ⟨hid, _⟩ := (hall h rs hrs).1 r hmem
  have hv : w.svc.validate h req.StartDate req.EndDate = .ok (start, stop) :=
    (validate_ok_iff _ _ _ _ _ _).2 ⟨by rw [hhs]; exact hcat, hsd, hed, hlt⟩
  have hb : Blocks start stop "" r :=
    ⟨hid, s2, e2, hs2, he2, (isOverlapping_iff _ _ _ _).2
      ⟨Nat.le_of_lt hov.1, Nat.le_of_lt hov.2⟩⟩
  have ho := hasOverlapping_true_of_blocks w.svc h start stop "" rs r hrs hmem hb
  rw [create_of_check_error _ _ _ _ _ _ (createCheck_conflict _ _ _ g now start stop hv ho)]
  exact ⟨rfl, rfl⟩

/-- Instance of C4: with Alice's stay `2024-03-01..2024-03-05` stored,
`Create(H1, Carol, 2024-03-04, 2024-03-06)` fails with the overlap-conflict error. -/
theorem C4_create_overlap_conflict_witness :
    Reachable sampleCatalog aliceWorld ∧
      (dateInstant 2024 3 4 < dateInstant 2024 3 5 ∧
        dateInstant 2024 3 6 > dateInstant 2024 3 1) ∧
      (aliceWorld.svc.CreateReservation "H1"
        (mkCreate "Carol" "2024-03-04" "2024-03-06") carolID t2).1 =
          .error .overlapConflict :=
  ⟨aliceWorld_reachable, by decide,
    (C4_create_overlap_conflict sampleCatalog aliceWorld aliceWorld_reachable "H1" (by decide)
      (mkCreate "Carol" "2024-03-04" "2024-03-06") (dateInstant 2024 3 4) (dateInstant 2024 3 6)
      (by decide) (by decide) (by decide)
      [aliceStay] (by decide)
      aliceStay (by decide)
      (dateInstant 2024 3 1) (dateInstant 2024 3 5) (by decide) (by decide) (by decide)
      carolID t2).1⟩

/-- C5 fails on the code (a race between two creates): from the empty ledger, two
`CreateReservation` calls on `H1` with the overlapping ranges `2024-03-01..2024-03-05` and
`2024-03-04..2024-03-06`, scheduled so that both run their read-locked overlap check before
either takes the write lock, both succeed, and the ledger ends up holding both reservations. -/
theorem C5_concurrent_creates_both_succeed :
    (runTwo (NewReservationService sampleCatalog)
        (.start "H1" (mkCreate "Alice" "2024-03-01" "2024-03-05") aliceID t0)
        (.start "H1" (mkCreate "Carol" "2024-03-04" "2024-03-06") carolID t0)
        [true, false, true, false]).1 =
      .done (.ok aliceStay) ∧
    (runTwo (NewReservationService sampleCatalog)
        (.start "H1" (mkCreate "Alice" "2024-03-01" "2024-03-05") aliceID t0)
        (.start "H1" (mkCreate "Carol" "2024-03-04" "2024-03-06") carolID t0)
        [true, false, true, false]).2.1 =
      .done (.ok carolStay) ∧
    (runTwo (NewReservationService sampleCatalog)
        (.start "H1" (mkCreate "Alice" "2024-03-01" "2024-03-05") aliceID t0)
        (.start "H1" (mkCreate "Carol" "2024-03-04" "2024-03-06") carolID t0)
        [true, false, true, false]).2.2.reservations "H1" =
      some [aliceStay,
            carolStay] ∧
    ParseDate "2024-03-01" = some (dateInstant 2024 3 1) ∧
    ParseDate "2024-03-05" = some (dateInstant 2024 3 5) ∧
    ParseDate "2024-03-04" = some (dateInstant 2024 3 4) ∧
    ParseDate "2024-03-06" = some (dateInstant 2024 3 6) ∧
    (dateInstant 2024 3 1 < dateInstant 2024 3 6 ∧
      dateInstant 2024 3 5 > dateInstant 2024 3 4) := by
  refine ⟨?_, ?_, ?_, ?_, ?_, ?_, ?_, ?_⟩ <;> decide

/-- C6 (all-or-nothing effects): in every ledger state and for every input, a
`CreateReservation`, `UpdateReservation` or `DeleteReservation` call that returns an error
leaves the ledger, and so the map from hotels to collections, as it was before the call;
`GetReservationsByHotelID` and `GetReservationByID` leave it as it was in every case. -/
theorem C6_all_or_nothing (s : ReservationService) (h rid : String)
    (creq : CreateReservationRequest) (ureq : UpdateReservationRequest) (g : String)
    (now : Time) :
    (∀ e, (s.CreateReservation h creq g now).1 = .error e →
        (s.CreateReservation h creq g now).2 = s) ∧
      (∀ e, (s.UpdateReservation h rid ureq now).1 = .error e →
        (s.UpdateReservation h rid ureq now).2 = s) ∧
      (∀ e, (s.DeleteReservation h rid).1 = .error e → (s.DeleteReservation h rid).2 = s) ∧
      (s.GetReservationsByHotelID h).2 = s ∧ (s.GetReservationByID h rid).2 = s := by
  refine ⟨?_, ?_, ?_, ?_, ?_⟩
  · intro e he
    cases hc : s.createCheck h creq g now with
    | error e1 => rw [create_of_check_error _ _ _ _ _ e1 hc]
    | ok r => rw [create_of_check_ok _ _ _ _ _ r hc] at he; cases he
  · intro e he
    cases hc : s.updateCheck h rid ureq with
    | error e1 => rw [update_of_check_error _ _ _ _ _ e1 hc]
    | ok u0 =>
      rw [update_of_check_ok _ _ _ _ _ hc] at he ⊢
      by_cases hmiss : ∀ rs, s.reservations h = some rs → updateScan rid ureq now rs = none
      · rw [updateStore_missing _ _ _ _ _ hmiss]
      · simp only [not_forall] at hmiss
        obtain ⟨rs, hq, hne⟩ := hmiss
        cases hu : updateScan rid ureq now rs with
        | none => exact absurd hu hne
        | some p =>
          obtain ⟨rs1, u⟩ := p
          rw [updateStore_found _ _ _ _ _ rs rs1 u hq hu] at he
          cases he
  · intro e he
    cases hcat : s.hotelService.GetHotelByID h with
    | none => rw [delete_no_hotel _ _ _ hcat]
    | some hotel =>
      have hcat1 : (s.hotelService.GetHotelByID h).isSome = true := by simp [hcat]
      by_cases hmiss : ∀ rs, s.reservations h = some rs → deleteScan rid rs = none
      · rw [delete_missing _ _ _ hcat1 hmiss]
      · simp only [not_forall] at hmiss
        obtain ⟨rs, hq, hne⟩ := hmiss
        cases hd : deleteScan rid rs with
        | none => exact absurd hd hne
        | some rs1 =>
          rw [delete_found _ _ _ rs rs1 hcat1 hq hd] at he
          cases he
  · unfold ReservationService.GetReservationsByHotelID
    cases s.hotelService.GetHotelByID h with
    | none => rfl
    | some hotel => cases s.reservations h <;> rfl
  · unfold ReservationService.GetReservationByID
    cases s.hotelService.GetHotelByID h with
    | none => rfl
    | some hotel =>
      cases s.reservations h with
      | none => rfl
      | some rs =>
        simp only []
        cases hf : List.find? (fun reservation => reservation.ID == rid) rs <;> rfl

/-- Instance of C6: on the ledger holding Alice's stay, a create that fails with the
overlap-conflict error, an update of an unknown id and a delete of an unknown id each
return the ledger unchanged. -/
theorem C6_all_or_nothing_witness :
    (aliceWorld.svc.CreateReservation "H1" (mkCreate "Carol" "2024-03-04" "2024-03-06")
        carolID t2).1 = .error .overlapConflict ∧
      (aliceWorld.svc.CreateReservation "H1" (mkCreate "Carol" "2024-03-04" "2024-03-06")
        carolID t2).2 = aliceWorld.svc ∧
      (aliceWorld.svc.UpdateReservation "H1" unknownID (mkUpdate "Carol" "2024-04-01" "2024-04-02")
        t3).2 = aliceWorld.svc ∧
      (aliceWorld.svc.DeleteReservation "H1" unknownID).2 = aliceWorld.svc :=
  ⟨by decide,
    (C6_all_or_nothing aliceWorld.svc "H1" unknownID (mkCreate "Carol" "2024-03-04" "2024-03-06")
      (mkUpdate "Carol" "2024-04-01" "2024-04-02") carolID t2).1 .overlapConflict
      (by decide),
    (C6_all_or_nothing aliceWorld.svc "H1" unknownID (mkCreate "Carol" "2024-03-04" "2024-03-06")
      (mkUpdate "Carol" "2024-04-01" "2024-04-02") carolID t3).2.1 .reservationNotFound
      (by decide),
    (C6_all_or_nothing aliceWorld.svc "H1" unknownID (mkCreate "Carol" "2024-03-04" "2024-03-06")
      (mkUpdate "Carol" "2024-04-01" "2024-04-02") carolID t2).2.2.1 .reservationNotFound
      (by decide)⟩

/-- C7, as the claim states it, fails: with Alice's stay `2024-03-01..2024-03-05` stored under
`H1`, an update of the id `id-none`, which no reservation of `H1` carries, to the range
`2024-03-04..2024-03-06` returns the overlap-conflict error, not reservation-not-found. -/
theorem C7_counterexample :
    (aliceWorld.svc.GetReservationsByHotelID "H1").1 =
        .ok [aliceStay] ∧
      (aliceWorld.svc.UpdateReservation "H1" unknownID
        (mkUpdate "Carol" "2024-03-04" "2024-03-06") t2).1 = .error .overlapConflict ∧
      (aliceWorld.svc.UpdateReservation "H1" unknownID
        (mkUpdate "Carol" "2024-03-04" "2024-03-06") t2).1 ≠ .error .reservationNotFound := by
  refine ⟨?_, ?_, ?_⟩ <;> decide

/-- C7 (amended): for every catalog hotel `h`, every id that no reservation of `h` carries and
every update request whose dates parse with end strictly after start, `UpdateReservation`
fails; the error is reservation-not-found ("reservation not found") when the overlap check
of the requested range against the stored reservations of `h` finds nothing, and the
overlap-conflict error when it finds a conflict, the check running before the lookup. -/
theorem C7_update_unknown_id (s : ReservationService) (h rid : String)
    (hcat : (s.hotelService.GetHotelByID h).isSome = true)
    (hno : ∀ rs, s.reservations h = some rs → ∀ r ∈ rs, r.ID ≠ rid)
    (req : UpdateReservationRequest) (start stop : Time)
    (hsd : ParseDate req.StartDate = some start) (hed : ParseDate req.EndDate = some stop)
    (hlt : stop > start) (now : Time) :
    (s.UpdateReservation h rid req now).1 =
        (if s.hasOverlappingReservations h start stop rid = true then .error .overlapConflict
         else .error .reservationNotFound) ∧
      Error.message .reservationNotFound = "reservation not found" := by
  have hv : s.validate h req.StartDate req.EndDate = .ok (start, stop) :=
    (validate_ok_iff _ _ _ _ _ _).2 ⟨hcat, hsd, hed, hlt⟩
  refine ⟨?_, rfl⟩
  cases ho : s.hasOverlappingReservations h start stop rid with
  | true =>
    have hc : s.updateCheck h rid req = .error .overlapConflict := by
      simp [ReservationService.updateCheck, hv, ho]
    rw [update_of_check_error _ _ _ _ _ _ hc]
    rfl
  | false =>
    have hc : s.updateCheck h rid req = .ok () :=
      (updateCheck_ok_iff _ _ _ _).2 ⟨start, stop, hv, ho⟩
    rw [update_of_check_ok _ _ _ _ _ hc, updateStore_missing]
    · rfl
    · intro rs hq
      exact (updateScan_none_iff _ _ _ _).2 (hno rs hq)

/-- Instance of the amended C7: with Alice's stay stored, an update of an unknown id to a
free range fails with reservation-not-found. -/
theorem C7_update_unknown_id_witness :
    dateInstant 2024 4 2 > dateInstant 2024 4 1 ∧
      (aliceWorld.svc.UpdateReservation "H1" unknownID
        (mkUpdate "Carol" "2024-04-01" "2024-04-02") t3).1 = .error .reservationNotFound :=
  ⟨by decide,
    (C7_update_unknown_id aliceWorld.svc "H1" unknownID (by decide)
      (fun rs hq r hr => by
        have e : rs = [aliceStay] :=
          Option.some.inj (hq.symm.trans (by decide))
        subst e
        rw [List.mem_singleton] at hr
        subst hr
        decide)
      (mkUpdate "Carol" "2024-04-01" "2024-04-02") (dateInstant 2024 4 1) (dateInstant 2024 4 2)
      (by decide) (by decide) (by decide) t3).1.trans (by decide)⟩

theorem gone_after_delete {hs : HotelService} {w : World} (hr : Reachable hs w)
    (h id : String) (hdel : (w.svc.DeleteReservation h id).1 = .ok ()) :
    Gone h id (w.exec (.delete h id)) := by
  have hinv := reachable_inv hr
  simp only [World.exec]
  cases hcat : w.svc.hotelService.GetHotelByID h with
  | none => rw [delete_no_hotel _ _ _ hcat] at hdel; cases hdel
  | some hotel =>
    have hcat1 : (w.svc.hotelService.GetHotelByID h).isSome = true := by simp [hcat]
    by_cases hmiss : ∀ rs, w.svc.reservations h = some rs → deleteScan id rs = none
    · rw [delete_missing _ _ _ hcat1 hmiss] at hdel; cases hdel
    · simp only [not_forall] at hmiss
      obtain ⟨rs, hq, hne⟩ := hmiss
      cases hd : deleteScan id rs with
      | none => exact absurd hd hne
      | some rs1 =>
        rw [delete_found _ _ _ rs rs1 hcat1 hq hd]
        obtain ⟨pre, r, post, e1, e2, e3, e4⟩ := deleteScan_some _ _ _ hd
        obtain ⟨hwf, hpw⟩ := hinv.2 h rs hq
        subst e1
        rw [List.pairwise_append, List.pairwise_cons] at hpw
        obtain ⟨_, ⟨hp2, _⟩, _⟩ := hpw
        refine ⟨hcat1, ?_, ?_⟩
        · have := (hwf r (by simp)).2.1
          rw [e3] at this
          exact this
        · intro ks hks x hx
          simp only [ReservationService.setReservations, if_pos, Option.some.injEq] at hks
          subst hks
          rw [e4] at hx
          rcases List.mem_append.1 hx with hx | hx
          · exact e2 x hx
          · have := (hp2 x hx).1
            rw [e3] at this
            exact fun hc => this hc.symm

theorem gone_create {h id : String} {w : World} (hg : Gone h id w) (k : String)
    (req : CreateReservationRequest) (g : String) (now : Time)
    (hfresh : g ≠ "" ∧ g ∉ w.issued) : Gone h id (w.exec (.create k req g now)) := by
  cases hc : w.svc.createCheck k req g now with
  | error e => rw [exec_create_error w k req g now e hc]; exact hg
  | ok r =>
    rw [exec_create_ok w k req g now r hc]
    obtain ⟨a, b, _, _, hr⟩ := (createCheck_ok_iff _ _ _ _ _ _).1 hc
    obtain ⟨h1, h2, h3⟩ := hg
    refine ⟨by rw [createStore_hotelService]; exact h1, List.mem_cons_of_mem _ h2, ?_⟩
    intro rs hrs x hx
    simp only [createStore_reservations] at hrs
    by_cases hk : h = k
    · subst hk
      rw [if_pos rfl] at hrs
      simp only [Option.some.injEq] at hrs
      subst hrs
      rcases List.mem_append.1 hx with hx | hx
      · cases hq : w.svc.reservations h with
        | none => rw [hq] at hx; simp at hx
        | some old => rw [hq] at hx; exact h3 old hq x hx
      · rw [List.mem_singleton] at hx
        subst hx
        intro hid
        apply hfresh.2
        have : x.ID = g := by rw [hr]
        rw [← this, hid]
        exact h2
    · rw [if_neg hk] at hrs
      exact h3 rs hrs x hx

theorem gone_get {h id : String} {w : World} (hg : Gone h id w) :
    (w.svc.GetReservationByID h id).1 = .error .reservationNotFound := by
  obtain ⟨h1, _, h3⟩ := hg
  obtain ⟨hotel, hh⟩ := Option.isSome_iff_exists.1 h1
  unfold ReservationService.GetReservationByID
  rw [hh]
  cases hq : w.svc.reservations h with
  | none => rfl
  | some rs =>
    have hf : List.find? (fun reservation => reservation.ID == id) rs = none := by
      rw [List.find?_eq_none]
      intro x hx
      simpa using h3 rs hq x hx
    simp only [hf]

theorem gone_run {h id : String} (cs : List Call) :
    ∀ {w : World}, Gone h id w → (∀ c ∈ cs, c.isCreate = true) → w.FreshRun cs →
      Gone h id (w.run cs) := by
  induction cs with
  | nil => intro w hg _ _; exact hg
  | cons c cs ih =>
    intro w hg hall hf
    have hc := hall c (List.mem_cons_self _ _)
    cases c with
    | create k req g now =>
      exact ih (gone_create hg k req g now hf.1)
        (fun c1 hc1 => hall c1 (List.mem_cons_of_mem _ hc1)) hf.2
    | update k rid req now => cases hc
    | delete k rid => cases hc

/-- When the calls run one after the other, an update of a stored reservation `r` to the
range it already holds succeeds and returns `r` with the new name and update time. -/
theorem update_same_range_sequential (hs : HotelService) (w : World) (hr : Reachable hs w)
    (h : String) (rs : List Reservation) (hrs : w.svc.reservations h = some rs)
    (r : Reservation) (hmem : r ∈ rs) (name : String) (now : Time) :
    (w.svc.UpdateReservation h r.ID (mkUpdate name r.StartDate r.EndDate) now).1 =
      .ok { r with CustomerName := name, UpdatedAt := now } := by
  obtain ⟨hhs, hall⟩ := reachable_inv hr
  obtain ⟨hwf, hpw⟩ := hall h rs hrs
  obtain ⟨_, _, _, hcat, a, b, hpa, hpb, hab⟩ := hwf r hmem
  have hsym : Symmetric Apart := fun _ _ hab => apart_symm hab
  have hv : w.svc.validate h (mkUpdate name r.StartDate r.EndDate).StartDate
      (mkUpdate name r.StartDate r.EndDate).EndDate = .ok (a, b) :=
    (validate_ok_iff _ _ _ _ _ _).2 ⟨by rw [hhs]; exact hcat, hpa, hpb, hab⟩
  have ho : w.svc.hasOverlappingReservations h a b r.ID = false := by
    rw [hasOverlapping_false_iff]
    intro rs1 hq x hx hb
    rw [hrs] at hq
    cases hq
    obtain ⟨hxid, xs, xe, hxs, hxe, hov⟩ := hb
    have hxr : x ≠ r := fun e => hxid (by rw [e])
    have hap := hpw.forall hsym hx hmem hxr
    have := hap.2 xs xe a b hxs hxe hpa hpb
    rw [isOverlapping_comm, hov] at this
    cases this
  have hc := (updateCheck_ok_iff _ _ _ _).2 ⟨a, b, hv, ho⟩
  rw [update_of_check_ok _ _ _ _ _ hc]
  cases hu : updateScan r.ID (mkUpdate name r.StartDate r.EndDate) now rs with
  | none => exact absurd rfl ((updateScan_none_iff _ _ _ _).1 hu r hmem)
  | some p =>
    obtain ⟨rs1, u⟩ := p
    rw [updateStore_found _ _ _ _ _ rs rs1 u hrs hu]
    obtain ⟨pre, r0, post, e1, _, e3, e4, _⟩ := updateScan_some _ _ _ _ _ _ hu
    have hr0 : r0 ∈ rs := by rw [e1]; simp
    have heq : r0 = r := by
      by_contra hne
      exact (hpw.forall hsym hr0 hmem hne).1 e3
    rw [e4, heq]
    rfl

/-- C8 fails on the code in a ledger reached by two concurrent creates: after the creates
of Alice's stay `2024-03-01..2024-03-05` and Carol's stay `2024-03-04..2024-03-06` have
both run their overlap check before either append, hotel `H1` holds both reservations, and
an update of either of them to the range it already holds returns the overlap-conflict
error, raised against the other one. -/
theorem C8_update_same_range_fails_after_race :
    raceLedger.reservations "H1" = some [aliceStay, carolStay] ∧
      aliceStay.ID ≠ carolStay.ID ∧
      (raceLedger.UpdateReservation "H1" aliceStay.ID
        (mkUpdate "Alice" aliceStay.StartDate aliceStay.EndDate) t4).1 =
        .error .overlapConflict ∧
      (raceLedger.UpdateReservation "H1" carolStay.ID
        (mkUpdate "Carol" carolStay.StartDate carolStay.EndDate) t4).1 =
        .error .overlapConflict := by
  refine ⟨?_, ?_, ?_, ?_⟩ <;> decide

/-- C9 (read-after-write): in every ledger state in which `CreateReservation(h, req)`
succeeds returning `r`, the generated id being one that no reservation of `h` carries yet,
an immediately following `GetReservationByID(h, r.ID)` succeeds and returns `r`, equal in
every field. -/
theorem C9_read_after_write (s : ReservationService) (h : String)
    (req : CreateReservationRequest) (g : String) (now : Time) (r : Reservation)
    (hfresh : ∀ rs, s.reservations h = some rs → ∀ x ∈ rs, x.ID ≠ g)
    (hok : (s.CreateReservation h req g now).1 = .ok r) :
    ((s.CreateReservation h req g now).2.GetReservationByID h r.ID).1 = .ok r := by
  cases hc : s.createCheck h req g now with
  | error e => rw [create_of_check_error _ _ _ _ _ e hc] at hok; cases hok
  | ok r1 =>
    rw [create_of_check_ok _ _ _ _ _ r1 hc] at hok ⊢
    cases hok
    obtain ⟨a, b, hv, _, hr⟩ := (createCheck_ok_iff _ _ _ _ _ _).1 hc
    obtain ⟨hcat, _⟩ := (validate_ok_iff _ _ _ _ _ _).1 hv
    obtain ⟨hotel, hh⟩ := Option.isSome_iff_exists.1 hcat
    have hid : r.ID = g := by rw [hr]
    unfold ReservationService.GetReservationByID
    simp only [createStore_hotelService, hh, createStore_reservations, if_pos]
    have hold : List.find? (fun reservation => reservation.ID == r.ID)
        ((s.reservations h).getD []) = none := by
      rw [List.find?_eq_none]
      intro x hx
      cases hq : s.reservations h with
      | none => rw [hq] at hx; simp at hx
      | some old =>
        rw [hq] at hx
        rw [hid]
        simpa using hfresh old hq x hx
    simp [List.find?_append, hold]

/-- Instance of C9: Bob's stay is created on the ledger holding Alice's and read back. -/
theorem C9_read_after_write_witness :
    (aliceWorld.svc.CreateReservation "H1" (mkCreate "Bob" "2024-03-06" "2024-03-10")
        bobID t1).1 =
        .ok bobStay ∧
      ((aliceWorld.svc.CreateReservation "H1" (mkCreate "Bob" "2024-03-06" "2024-03-10")
        bobID t1).2.GetReservationByID "H1" bobID).1 =
        .ok bobStay :=
  ⟨by decide,
    C9_read_after_write aliceWorld.svc "H1" (mkCreate "Bob" "2024-03-06" "2024-03-10")
      bobID t1 bobStay
      (fun rs hq x hx => by
        have e : rs = [aliceStay] :=
          Option.some.inj (hq.symm.trans (by decide))
        subst e
        rw [List.mem_singleton] at hx
        subst hx
        decide)
      (by decide)⟩

/-- C10 (deletion finality): in every ledger reached by sequential calls with fresh ids, if
`DeleteReservation(h, id)` succeeds, then an immediately following
`GetReservationByID(h, id)` fails with reservation-not-found, and it still fails with that
error after any further sequence of `CreateReservation` calls, on any hotels, whose
generated ids are fresh. -/
theorem C10_deletion_finality (hs : HotelService) (w : World) (hr : Reachable hs w)
    (h id : String) (hdel : (w.svc.DeleteReservation h id).1 = .ok ()) :
    ((w.svc.DeleteReservation h id).2.GetReservationByID h id).1 =
        .error .reservationNotFound ∧
      ∀ cs : List Call, (∀ c ∈ cs, c.isCreate = true) →
        (w.exec (.delete h id)).FreshRun cs →
        (((w.exec (.delete h id)).run cs).svc.GetReservationByID h id).1 =
          .error .reservationNotFound := by
  have hg := gone_after_delete hr h id hdel
  exact ⟨gone_get hg, fun cs hcs hf => gone_get (gone_run cs hg hcs hf)⟩

/-- Instance of C10: Alice's reservation is deleted, then Bob's stay over the same dates is
created; Alice's id is not found afterwards. -/
theorem C10_deletion_finality_witness :
    Reachable sampleCatalog aliceWorld ∧
      (aliceWorld.svc.DeleteReservation "H1" aliceID).1 = .ok () ∧
      (((aliceWorld.exec (.delete "H1" aliceID)).run
          [.create "H1" (mkCreate "Bob" "2024-03-01" "2024-03-05") bobID t1]).svc
        |>.GetReservationByID "H1" aliceID).1 = .error .reservationNotFound :=
  ⟨aliceWorld_reachable, by decide,
    (C10_deletion_finality sampleCatalog aliceWorld aliceWorld_reachable "H1" aliceID
      (by decide)).2 [.create "H1" (mkCreate "Bob" "2024-03-01" "2024-03-05") bobID t1]
      (by decide) ⟨⟨by decide, by decide⟩, trivial⟩⟩

/-! ## Effects of the operations -/

theorem getHotelByID_none_of_no_match (hs : HotelService) (h : String)
    (hno : ∀ hotel ∈ hs.Hotels, hotel.ID ≠ h) : hs.GetHotelByID h = none := by
  unfold HotelService.GetHotelByID
  rw [List.find?_eq_none]
  intro x hx
  simpa using hno x hx

theorem update_cases (s : ReservationService) (h rid : String)
    (req : UpdateReservationRequest) (now : Time) :
    (∃ e, s.UpdateReservation h rid req now = (.error e, s)) ∨
      ∃ pre r post, s.reservations h = some (pre ++ r :: post) ∧ (∀ a ∈ pre, a.ID ≠ rid) ∧
        r.ID = rid ∧
        s.UpdateReservation h rid req now =
          (.ok (updatedEntry r req now),
            s.setReservations h (pre ++ updatedEntry r req now :: post)) := by
  cases hc : s.updateCheck h rid req with
  | error e => exact Or.inl ⟨e, update_of_check_error _ _ _ _ _ e hc⟩
  | ok u0 =>
    rw [update_of_check_ok _ _ _ _ _ hc]
    by_cases hmiss : ∀ rs, s.reservations h = some rs → updateScan rid req now rs = none
    · exact Or.inl ⟨_, updateStore_missing _ _ _ _ _ hmiss⟩
    · simp only [not_forall] at hmiss
      obtain ⟨rs, hq, hne⟩ := hmiss
      cases hu : updateScan rid req now rs with
      | none => exact absurd hu hne
      | some p =>
        obtain ⟨rs1, u⟩ := p
        obtain ⟨pre, r, post, e1, e2, e3, e4, e5⟩ := updateScan_some _ _ _ _ _ _ hu
        refine Or.inr ⟨pre, r, post, by rw [hq, e1], e2, e3, ?_⟩
        rw [updateStore_found _ _ _ _ _ rs rs1 u hq hu, e5, e4]

theorem delete_cases (s : ReservationService) (h rid : String) :
    (∃ e, s.DeleteReservation h rid = (.error e, s)) ∨
      ∃ pre r post, s.reservations h = some (pre ++ r :: post) ∧ (∀ a ∈ pre, a.ID ≠ rid) ∧
        r.ID = rid ∧ (s.hotelService.GetHotelByID h).isSome = true ∧
        s.DeleteReservation h rid = (.ok (), s.setReservations h (pre ++ post)) := by
  cases hcat : s.hotelService.GetHotelByID h with
  | none => exact Or.inl ⟨_, delete_no_hotel _ _ _ hcat⟩
  | some hotel =>
    have hcat1 : (s.hotelService.GetHotelByID h).isSome = true := by simp [hcat]
    by_cases hmiss : ∀ rs, s.reservations h = some rs → deleteScan rid rs = none
    · exact Or.inl ⟨_, delete_missing _ _ _ hcat1 hmiss⟩
    · simp only [not_forall] at hmiss
      obtain ⟨rs, hq, hne⟩ := hmiss
      cases hd : deleteScan rid rs with
      | none => exact absurd hd hne
      | some rs1 =>
        obtain ⟨pre, r, post, e1, e2, e3, e4⟩ := deleteScan_some _ _ _ hd
        refine Or.inr ⟨pre, r, post, by rw [hq, e1], e2, e3, rfl, ?_⟩
        rw [delete_found _ _ _ rs rs1 hcat1 hq hd, e4]

theorem setReservations_same (s : ReservationService) (h : String) (rs : List Reservation) :
    (s.setReservations h rs).reservations h = some rs := by
  simp [ReservationService.setReservations]

theorem setReservations_other (s : ReservationService) (h k : String) (rs : List Reservation)
    (hk : k ≠ h) : (s.setReservations h rs).reservations k = s.reservations k := by
  simp [ReservationService.setReservations, hk]

theorem delete_error_kind (s : ReservationService) (h rid : String) (e : Error)
    (he : (s.DeleteReservation h rid).1 = .error e) :
    e = .hotelNotFound ∨ e = .reservationNotFound := by
  cases hcat : s.hotelService.GetHotelByID h with
  | none =>
    rw [delete_no_hotel _ _ _ hcat] at he
    cases he
    exact Or.inl rfl
  | some hotel =>
    have hcat1 : (s.hotelService.GetHotelByID h).isSome = true := by simp [hcat]
    by_cases hmiss : ∀ rs, s.reservations h = some rs → deleteScan rid rs = none
    · rw [delete_missing _ _ _ hcat1 hmiss] at he
      cases he
      exact Or.inr rfl
    · simp only [not_forall] at hmiss
      obtain ⟨rs, hq, hne⟩ := hmiss
      cases hd : deleteScan rid rs with
      | none => exact absurd hd hne
      | some rs1 =>
        rw [delete_found _ _ _ rs rs1 hcat1 hq hd] at he
        cases he

/-- C11 (delete contract): for every catalog hotel `h` and every id, `DeleteReservation(h, id)`
succeeds exactly when some reservation of `h` carries the id; on success the collection of
`h` is the old one without its first entry of that id, the other entries in their order, and
the collection of every other hotel is unchanged; when it does not succeed the result is
reservation-not-found. The delete endpoint therefore never answers with status 500. -/
theorem C11_delete_contract (s : ReservationService) (h id : String)
    (hcat : (s.hotelService.GetHotelByID h).isSome = true) :
    ((s.DeleteReservation h id).1 = .ok () ↔
        ∃ rs, s.reservations h = some rs ∧ ∃ r ∈ rs, r.ID = id) ∧
      ((s.DeleteReservation h id).1 = .ok () →
        ∃ pre r post, s.reservations h = some (pre ++ r :: post) ∧ (∀ a ∈ pre, a.ID ≠ id) ∧
          r.ID = id ∧ (s.DeleteReservation h id).2.reservations h = some (pre ++ post) ∧
          ∀ k, k ≠ h → (s.DeleteReservation h id).2.reservations k = s.reservations k) ∧
      ((s.DeleteReservation h id).1 ≠ .ok () →
        (s.DeleteReservation h id).1 = .error .reservationNotFound) ∧
      (ReservationHandler.DeleteReservation s h id).1 ≠ 500 := by
  have hsucc : (s.DeleteReservation h id).1 = .ok () →
      ∃ pre r post, s.reservations h = some (pre ++ r :: post) ∧ (∀ a ∈ pre, a.ID ≠ id) ∧
        r.ID = id ∧ (s.DeleteReservation h id).2.reservations h = some (pre ++ post) ∧
        ∀ k, k ≠ h → (s.DeleteReservation h id).2.reservations k = s.reservations k := by
    intro hok
    rcases delete_cases s h id with ⟨e, he⟩ | ⟨pre, r, post, e1, e2, e3, _, e5⟩
    · rw [he] at hok; cases hok
    · refine ⟨pre, r, post, e1, e2, e3, ?_, ?_⟩
      · rw [e5]; exact setReservations_same _ _ _
      · intro k hk; rw [e5]; exact setReservations_other _ _ _ _ hk
  have hfail : (s.DeleteReservation h id).1 ≠ .ok () →
      (s.DeleteReservation h id).1 = .error .reservationNotFound := by
    intro hne
    by_cases hmiss : ∀ rs, s.reservations h = some rs → deleteScan id rs = none
    · rw [delete_missing _ _ _ hcat hmiss]
    · simp only [not_forall] at hmiss
      obtain ⟨rs, hq, hn⟩ := hmiss
      cases hd : deleteScan id rs with
      | none => exact absurd hd hn
      | some rs1 => rw [delete_found _ _ _ rs rs1 hcat hq hd] at hne; exact absurd rfl hne
  refine ⟨⟨?_, ?_⟩, hsucc, hfail, ?_⟩
  · intro hok
    obtain ⟨pre, r, post, e1, _, e3, _⟩ := hsucc hok
    exact ⟨_, e1, r, by simp, e3⟩
  · rintro ⟨rs, hq, r, hr, hid⟩
    cases hd : deleteScan id rs with
    | none => exact absurd hid ((deleteScan_none_iff _ _).1 hd r hr)
    | some rs1 => rw [delete_found _ _ _ rs rs1 hcat hq hd]
  · unfold ReservationHandler.DeleteReservation
    cases hres : s.DeleteReservation h id with
    | mk res s1 =>
      cases res with
      | ok u => simp
      | error e =>
        have hk := delete_error_kind s h id e (by rw [hres])
        rcases hk with rfl | rfl <;> simp [Error.message]

/-- Instance of C11: Alice's reservation is deleted from the sample ledger. -/
theorem C11_delete_contract_witness :
    (sampleCatalog.GetHotelByID "H1").isSome = true ∧
      (aliceWorld.svc.DeleteReservation "H1" aliceID).1 = .ok () ∧
      (ReservationHandler.DeleteReservation aliceWorld.svc "H1" unknownID).1 ≠ 500 ∧
      ∃ pre r post, aliceWorld.svc.reservations "H1" = some (pre ++ r :: post) ∧
        (∀ a ∈ pre, a.ID ≠ aliceID) ∧ r.ID = aliceID ∧
        (aliceWorld.svc.DeleteReservation "H1" aliceID).2.reservations "H1" =
          some (pre ++ post) ∧
        ∀ k, k ≠ "H1" →
          (aliceWorld.svc.DeleteReservation "H1" aliceID).2.reservations k =
            aliceWorld.svc.reservations k :=
  ⟨by decide, by decide,
    (C11_delete_contract aliceWorld.svc "H1" unknownID (by decide)).2.2.2,
    (C11_delete_contract aliceWorld.svc "H1" aliceID (by decide)).2.1 (by decide)⟩

/-- C12 (effect of a successful update): when `UpdateReservation(h, id, req)` at time `now`
succeeds, the first entry of `h` carrying the id keeps its position, its `ID`, `HotelID`
and `CreatedAt`, takes `CustomerName`, `StartDate` and `EndDate` from the request and
`UpdatedAt = now`; every other entry of `h` and the collection of every other hotel are
unchanged, and the reservation returned is the entry stored. -/
theorem C12_update_effect (s : ReservationService) (h id : String)
    (req : UpdateReservationRequest) (now : Time) (u : Reservation)
    (hok : (s.UpdateReservation h id req now).1 = .ok u) :
    ∃ pre r post, s.reservations h = some (pre ++ r :: post) ∧ (∀ a ∈ pre, a.ID ≠ id) ∧
      r.ID = id ∧
      u = { ID := r.ID, HotelID := r.HotelID, CustomerName := req.CustomerName,
            StartDate := req.StartDate, EndDate := req.EndDate, CreatedAt := r.CreatedAt,
            UpdatedAt := now } ∧
      (s.UpdateReservation h id req now).2.reservations h = some (pre ++ u :: post) ∧
      ∀ k, k ≠ h → (s.UpdateReservation h id req now).2.reservations k = s.reservations k := by
  rcases update_cases s h id req now with ⟨e, he⟩ | ⟨pre, r, post, e1, e2, e3, e4⟩
  · rw [he] at hok; cases hok
  · rw [e4] at hok ⊢
    cases hok
    refine ⟨pre, r, post, e1, e2, e3, rfl, ?_, ?_⟩
    · exact setReservations_same _ _ _
    · intro k hk; exact setReservations_other _ _ _ _ hk

/-- Instance of C12: on the ledger holding Alice's and Bob's stays, Bob's reservation is
moved to `2024-03-11..2024-03-12`. -/
theorem C12_update_effect_witness :
    (aliceBobWorld.svc.UpdateReservation "H1" bobID
        (mkUpdate "Bob" "2024-03-11" "2024-03-12") t4).1 =
        .ok ⟨bobID, "H1", "Bob", "2024-03-11", "2024-03-12", t1, t4⟩ ∧
      ∃ pre r post, aliceBobWorld.svc.reservations "H1" = some (pre ++ r :: post) ∧
        (∀ a ∈ pre, a.ID ≠ bobID) ∧ r.ID = bobID ∧
        (⟨bobID, "H1", "Bob", "2024-03-11", "2024-03-12", t1, t4⟩ : Reservation) =
          { ID := r.ID, HotelID := r.HotelID, CustomerName := "Bob",
            StartDate := "2024-03-11", EndDate := "2024-03-12", CreatedAt := r.CreatedAt,
            UpdatedAt := t4 } ∧
        (aliceBobWorld.svc.UpdateReservation "H1" bobID
          (mkUpdate "Bob" "2024-03-11" "2024-03-12") t4).2.reservations "H1" =
          some (pre ++ ⟨bobID, "H1", "Bob", "2024-03-11", "2024-03-12", t1, t4⟩ :: post) ∧
        ∀ k, k ≠ "H1" →
          (aliceBobWorld.svc.UpdateReservation "H1" bobID
            (mkUpdate "Bob" "2024-03-11" "2024-03-12") t4).2.reservations k =
            aliceBobWorld.svc.reservations k :=
  ⟨by decide,
    C12_update_effect aliceBobWorld.svc "H1" bobID (mkUpdate "Bob" "2024-03-11" "2024-03-12") t4
      ⟨bobID, "H1", "Bob", "2024-03-11", "2024-03-12", t1, t4⟩ (by decide)⟩

/-- C13 (effect of a successful create): when `CreateReservation(h, req)` at time `now` with
generated id `g` succeeds, the reservation returned has `ID = g`, `HotelID = h`, the name
and dates of the request and `CreatedAt = UpdatedAt = now`; afterwards
`GetReservationsByHotelID(h)` returns the list it returned before the call, the empty list
when `h` had no key, with the new reservation appended at the end, and the collection of
every other hotel is unchanged. -/
theorem C13_create_effect (s : ReservationService) (h : String)
    (req : CreateReservationRequest) (g : String) (now : Time) (r : Reservation)
    (hok : (s.CreateReservation h req g now).1 = .ok r) :
    r = { ID := g, HotelID := h, CustomerName := req.CustomerName, StartDate := req.StartDate,
          EndDate := req.EndDate, CreatedAt := now, UpdatedAt := now } ∧
      (s.GetReservationsByHotelID h).1 = .ok ((s.reservations h).getD []) ∧
      ((s.CreateReservation h req g now).2.GetReservationsByHotelID h).1 =
        .ok ((s.reservations h).getD [] ++ [r]) ∧
      ∀ k, k ≠ h → (s.CreateReservation h req g now).2.reservations k = s.reservations k := by
  cases hc : s.createCheck h req g now with
  | error e => rw [create_of_check_error _ _ _ _ _ e hc] at hok; cases hok
  | ok r1 =>
    rw [create_of_check_ok _ _ _ _ _ r1 hc] at hok ⊢
    cases hok
    obtain ⟨a, b, hv, _, hr⟩ := (createCheck_ok_iff _ _ _ _ _ _).1 hc
    obtain ⟨hcat, _⟩ := (validate_ok_iff _ _ _ _ _ _).1 hv
    obtain ⟨hotel, hh⟩ := Option.isSome_iff_exists.1 hcat
    refine ⟨hr, ?_, ?_, ?_⟩
    · unfold ReservationService.GetReservationsByHotelID
      rw [hh]
      cases s.reservations h <;> rfl
    · unfold ReservationService.GetReservationsByHotelID
      simp only [createStore_hotelService, hh, createStore_reservations, if_pos]
    · intro k hk
      rw [createStore_reservations, if_neg hk]

/-- Instance of C13: Bob's stay is created on the ledger holding Alice's. -/
theorem C13_create_effect_witness :
    (aliceWorld.svc.CreateReservation "H1" (mkCreate "Bob" "2024-03-06" "2024-03-10")
        bobID t1).1 = .ok bobStay ∧
      (aliceWorld.svc.GetReservationsByHotelID "H1").1 = .ok [aliceStay] ∧
      ((aliceWorld.svc.CreateReservation "H1" (mkCreate "Bob" "2024-03-06" "2024-03-10")
        bobID t1).2.GetReservationsByHotelID "H1").1 = .ok [aliceStay, bobStay] :=
  ⟨by decide, by decide,
    ((C13_create_effect aliceWorld.svc "H1" (mkCreate "Bob" "2024-03-06" "2024-03-10")
      bobID t1 bobStay (by decide)).2.2.1).trans (by decide)⟩

/-- C14 (hotel check first): when `hotelID` matches no hotel of the catalog, each of
`GetReservationsByHotelID`, `GetReservationByID`, `CreateReservation`, `UpdateReservation`
and `DeleteReservation` returns the hotel-not-found error ("hotel not found"), whatever
the other arguments are. -/
theorem C14_hotel_check_first (s : ReservationService) (h : String)
    (hno : ∀ hotel ∈ s.hotelService.Hotels, hotel.ID ≠ h) (id : String)
    (creq : CreateReservationRequest) (ureq : UpdateReservationRequest) (g : String)
    (now : Time) :
    (s.GetReservationsByHotelID h).1 = .error .hotelNotFound ∧
      (s.GetReservationByID h id).1 = .error .hotelNotFound ∧
      (s.CreateReservation h creq g now).1 = .error .hotelNotFound ∧
      (s.UpdateReservation h id ureq now).1 = .error .hotelNotFound ∧
      (s.DeleteReservation h id).1 = .error .hotelNotFound ∧
      Error.message .hotelNotFound = "hotel not found" := by
  have hnone := getHotelByID_none_of_no_match s.hotelService h hno
  have hvc : ∀ sd ed, s.validate h sd ed = .error .hotelNotFound := by
    intro sd ed
    simp [ReservationService.validate, hnone]
  refine ⟨?_, ?_, ?_, ?_, ?_, rfl⟩
  · simp [ReservationService.GetReservationsByHotelID, hnone]
  · simp [ReservationService.GetReservationByID, hnone]
  · have hc : s.createCheck h creq g now = .error .hotelNotFound := by
      simp [ReservationService.createCheck, hvc]
    rw [create_of_check_error _ _ _ _ _ _ hc]
  · have hc : s.updateCheck h id ureq = .error .hotelNotFound := by
      simp [ReservationService.updateCheck, hvc]
    rw [update_of_check_error _ _ _ _ _ _ hc]
  · rw [delete_no_hotel _ _ _ hnone]

/-- Instance of C14: the hotel `H9` is not in the sample catalog, and a create with
malformed dates, an update with an inverted range and a delete of an unknown id all
return hotel-not-found. -/
theorem C14_hotel_check_first_witness :
    (aliceWorld.svc.CreateReservation "H9" (danaCreate "2024-13-01" "2024-13-05")
        carolID t2).1 = .error .hotelNotFound ∧
      (aliceWorld.svc.UpdateReservation "H9" unknownID
        (mkUpdate "Dana" "2024-03-10" "2024-03-01") t2).1 = .error .hotelNotFound ∧
      (aliceWorld.svc.DeleteReservation "H9" unknownID).1 = .error .hotelNotFound :=
  have key := C14_hotel_check_first aliceWorld.svc "H9" (by decide) unknownID
    (danaCreate "2024-13-01" "2024-13-05") (mkUpdate "Dana" "2024-03-10" "2024-03-01")
    carolID t2
  ⟨key.2.2.1, key.2.2.2.1, key.2.2.2.2.1⟩

/-! ## Validation errors -/

theorem validate_range_error (s : ReservationService) (h sd ed : String) (a b : Time)
    (hcat : (s.hotelService.GetHotelByID h).isSome = true) (hsd : ParseDate sd = some a)
    (hed : ParseDate ed = some b) (hle : ¬ (b > a)) :
    s.validate h sd ed = .error .invalidDateRange := by
  obtain ⟨hotel, hh⟩ := Option.isSome_iff_exists.1 hcat
  simp [ReservationService.validate, hh, hsd, hed, hle]

theorem validate_start_error (s : ReservationService) (h sd ed : String)
    (hcat : (s.hotelService.GetHotelByID h).isSome = true) (hsd : ParseDate sd = none) :
    s.validate h sd ed = .error .invalidStartDate := by
  obtain ⟨hotel, hh⟩ := Option.isSome_iff_exists.1 hcat
  simp [ReservationService.validate, hh, hsd]

theorem validate_end_error (s : ReservationService) (h sd ed : String) (a : Time)
    (hcat : (s.hotelService.GetHotelByID h).isSome = true) (hsd : ParseDate sd = some a)
    (hed : ParseDate ed = none) :
    s.validate h sd ed = .error .invalidEndDate := by
  obtain ⟨hotel, hh⟩ := Option.isSome_iff_exists.1 hcat
  simp [ReservationService.validate, hh, hsd, hed]

theorem create_of_validate_error (s : ReservationService) (h : String)
    (req : CreateReservationRequest) (g : String) (now : Time) (e : Error)
    (hv : s.validate h req.StartDate req.EndDate = .error e) :
    (s.CreateReservation h req g now).1 = .error e := by
  have hc : s.createCheck h req g now = .error e := by
    simp [ReservationService.createCheck, hv]
  rw [create_of_check_error _ _ _ _ _ _ hc]

theorem update_of_validate_error (s : ReservationService) (h rid : String)
    (req : UpdateReservationRequest) (now : Time) (e : Error)
    (hv : s.validate h req.StartDate req.EndDate = .error e) :
    (s.UpdateReservation h rid req now).1 = .error e := by
  have hc : s.updateCheck h rid req = .error e := by
    simp [ReservationService.updateCheck, hv]
  rw [update_of_check_error _ _ _ _ _ _ hc]

theorem create_of_validate_ok (s : ReservationService) (h : String)
    (req : CreateReservationRequest) (g : String) (now : Time) (a b : Time)
    (hv : s.validate h req.StartDate req.EndDate = .ok (a, b)) :
    (s.CreateReservation h req g now).1 = .error .overlapConflict ∨
      ∃ r, (s.CreateReservation h req g now).1 = .ok r := by
  cases ho : s.hasOverlappingReservations h a b "" with
  | true =>
    left
    rw [create_of_check_error _ _ _ _ _ _ (createCheck_conflict _ _ _ g now a b hv ho)]
  | false =>
    right
    have hc := (createCheck_ok_iff s h req g now _).2 ⟨a, b, hv, ho, rfl⟩
    exact ⟨_, by rw [create_of_check_ok _ _ _ _ _ _ hc]⟩

theorem update_of_validate_ok (s : ReservationService) (h rid : String)
    (req : UpdateReservationRequest) (now : Time) (a b : Time)
    (hv : s.validate h req.StartDate req.EndDate = .ok (a, b)) :
    (s.UpdateReservation h rid req now).1 = .error .overlapConflict ∨
      (s.UpdateReservation h rid req now).1 = .error .reservationNotFound ∨
      ∃ r, (s.UpdateReservation h rid req now).1 = .ok r := by
  cases ho : s.hasOverlappingReservations h a b rid with
  | true =>
    left
    have hc : s.updateCheck h rid req = .error .overlapConflict := by
      simp [ReservationService.updateCheck, hv, ho]
    rw [update_of_check_error _ _ _ _ _ _ hc]
  | false =>
    right
    have hc := (updateCheck_ok_iff s h rid req).2 ⟨a, b, hv, ho⟩
    rw [update_of_check_ok _ _ _ _ _ hc]
    by_cases hmiss : ∀ rs, s.reservations h = some rs → updateScan rid req now rs = none
    · left; rw [updateStore_missing _ _ _ _ _ hmiss]
    · simp only [not_forall] at hmiss
      obtain ⟨rs, hq, hne⟩ := hmiss
      cases hu : updateScan rid req now rs with
      | none => exact absurd hu hne
      | some p =>
        obtain ⟨rs1, u⟩ := p
        right
        exact ⟨u, by rw [updateStore_found _ _ _ _ _ rs rs1 u hq hu]⟩

/-- C15 (invalid date range): for every catalog hotel and every request whose dates parse,
`CreateReservation` and `UpdateReservation` fail with the invalid-date-range error ("end
date must be after start date") exactly when the parsed end date is not strictly after the
parsed start date; in particular a request whose end date equals its start date is
rejected with that error. -/
theorem C15_invalid_date_range (s : ReservationService) (h : String)
    (hcat : (s.hotelService.GetHotelByID h).isSome = true) (name sd ed : String)
    (start stop : Time) (hsd : ParseDate sd = some start) (hed : ParseDate ed = some stop)
    (id g : String) (now : Time) :
    ((s.CreateReservation h (mkCreate name sd ed) g now).1 = .error .invalidDateRange ↔
        ¬ (stop > start)) ∧
      ((s.UpdateReservation h id (mkUpdate name sd ed) now).1 = .error .invalidDateRange ↔
        ¬ (stop > start)) ∧
      (sd = ed →
        (s.CreateReservation h (mkCreate name sd ed) g now).1 = .error .invalidDateRange ∧
        (s.UpdateReservation h id (mkUpdate name sd ed) now).1 = .error .invalidDateRange) ∧
      Error.message .invalidDateRange = "end date must be after start date" := by
  have hbad : ¬ (stop > start) →
      (s.CreateReservation h (mkCreate name sd ed) g now).1 = .error .invalidDateRange ∧
      (s.UpdateReservation h id (mkUpdate name sd ed) now).1 = .error .invalidDateRange := by
    intro hle
    have hv := validate_range_error s h sd ed start stop hcat hsd hed hle
    exact ⟨create_of_validate_error s h (mkCreate name sd ed) g now _ hv,
      update_of_validate_error s h id (mkUpdate name sd ed) now _ hv⟩
  refine ⟨⟨?_, fun hle => (hbad hle).1⟩, ⟨?_, fun hle => (hbad hle).2⟩, ?_, rfl⟩
  · intro herr hgt
    have hv := (validate_ok_iff s h sd ed start stop).2 ⟨hcat, hsd, hed, hgt⟩
    rcases create_of_validate_ok s h (mkCreate name sd ed) g now start stop hv with h1 | ⟨r, h1⟩
    · rw [h1] at herr; cases herr
    · rw [h1] at herr; cases herr
  · intro herr hgt
    have hv := (validate_ok_iff s h sd ed start stop).2 ⟨hcat, hsd, hed, hgt⟩
    rcases update_of_validate_ok s h id (mkUpdate name sd ed) now start stop hv with
      h1 | h1 | ⟨r, h1⟩
    · rw [h1] at herr; cases herr
    · rw [h1] at herr; cases herr
    · rw [h1] at herr; cases herr
  · intro heq
    subst heq
    rw [hsd] at hed
    cases hed
    exact hbad (Nat.lt_irrefl _)

/-- Instance of C15: `Create(H1, Dana, 2024-03-10, 2024-03-01)` fails with the
invalid-date-range error. -/
theorem C15_invalid_date_range_witness :
    ¬ (dateInstant 2024 3 1 > dateInstant 2024 3 10) ∧
      ((World.init sampleCatalog).svc.CreateReservation "H1"
        (mkCreate "Dana" "2024-03-10" "2024-03-01") carolID t2).1 = .error .invalidDateRange :=
  ⟨by decide,
    (C15_invalid_date_range (World.init sampleCatalog).svc "H1" (by decide) "Dana"
      "2024-03-10" "2024-03-01" (dateInstant 2024 3 10) (dateInstant 2024 3 1) (by decide)
      (by decide) unknownID carolID t2).1.2 (by decide)⟩

/-- C16 (invalid date): for every catalog hotel, when the start date of the request does
not parse, `CreateReservation` and `UpdateReservation` fail with the invalid-date error
for the start date (message prefix "invalid start date"), also when the end date is
malformed too; when the start date parses and the end date does not, they fail with the
invalid-date error for the end date ("invalid end date"). Neither outcome depends on the
ledger, so the date error precedes the range and overlap checks. -/
theorem C16_invalid_date (s : ReservationService) (h : String)
    (hcat : (s.hotelService.GetHotelByID h).isSome = true) (name sd ed id g : String)
    (now : Time) :
    (ParseDate sd = none →
        (s.CreateReservation h (mkCreate name sd ed) g now).1 = .error .invalidStartDate ∧
        (s.UpdateReservation h id (mkUpdate name sd ed) now).1 = .error .invalidStartDate) ∧
      ((ParseDate sd).isSome = true → ParseDate ed = none →
        (s.CreateReservation h (mkCreate name sd ed) g now).1 = .error .invalidEndDate ∧
        (s.UpdateReservation h id (mkUpdate name sd ed) now).1 = .error .invalidEndDate) ∧
      Error.message .invalidStartDate = "invalid start date" ∧
      Error.message .invalidEndDate = "invalid end date" := by
  refine ⟨?_, ?_, rfl, rfl⟩
  · intro hsd
    have hv := validate_start_error s h sd ed hcat hsd
    exact ⟨create_of_validate_error s h (mkCreate name sd ed) g now _ hv,
      update_of_validate_error s h id (mkUpdate name sd ed) now _ hv⟩
  · intro hsd hed
    obtain ⟨a, ha⟩ := Option.isSome_iff_exists.1 hsd
    have hv := validate_end_error s h sd ed a hcat ha hed
    exact ⟨create_of_validate_error s h (mkCreate name sd ed) g now _ hv,
      update_of_validate_error s h id (mkUpdate name sd ed) now _ hv⟩

/-- Instance of C16: `Create(H1, Dana, 2024-13-01, 2024-13-05)` fails with the invalid-date
error for the start date, and with a valid start date it fails for the end date. -/
theorem C16_invalid_date_witness :
    ParseDate "2024-13-01" = none ∧ ParseDate "2024-13-05" = none ∧
      ((World.init sampleCatalog).svc.CreateReservation "H1"
        (mkCreate "Dana" "2024-13-01" "2024-13-05") carolID t2).1 = .error .invalidStartDate ∧
      ((World.init sampleCatalog).svc.CreateReservation "H1"
        (mkCreate "Dana" "2024-03-01" "2024-13-05") carolID t2).1 = .error .invalidEndDate :=
  ⟨by decide, by decide,
    ((C16_invalid_date (World.init sampleCatalog).svc "H1" (by decide) "Dana" "2024-13-01"
      "2024-13-05" unknownID carolID t2).1 (by decide)).1,
    ((C16_invalid_date (World.init sampleCatalog).svc "H1" (by decide) "Dana" "2024-03-01"
      "2024-13-05" unknownID carolID t2).2.1 (by decide) (by decide)).1⟩

/-- C17 (overlap symmetry): for all dates `s1`, `e1`, `s2`, `e2`,
`IsOverlapping(s1, e1, s2, e2) = IsOverlapping(s2, e2, s1, e1)`. -/
theorem C17_overlap_symmetry (s1 e1 s2 e2 : Time) :
    IsOverlapping s1 e1 s2 e2 = IsOverlapping s2 e2 s1 e1 :=
  isOverlapping_comm s1 e1 s2 e2

/-! ## Identifiers along a run -/

theorem world_eta (w : World) : ({ svc := w.svc, issued := w.issued } : World) = w := by
  cases w
  rfl

theorem exec_update_unchanged (w : World) (h rid : String) (req : UpdateReservationRequest)
    (now : Time) (e : Error) (he : w.svc.UpdateReservation h rid req now = (.error e, w.svc)) :
    w.exec (.update h rid req now) = w := by
  simp only [World.exec, he]

theorem exec_delete_unchanged (w : World) (h rid : String) (e : Error)
    (he : w.svc.DeleteReservation h rid = (.error e, w.svc)) :
    w.exec (.delete h rid) = w := by
  simp only [World.exec, he]

theorem issued_mono (w : World) (c : Call) (id : String) (hid : id ∈ w.issued) :
    id ∈ (w.exec c).issued := by
  cases c with
  | create h req g now =>
    cases hc : w.svc.createCheck h req g now with
    | error e => rw [exec_create_error w h req g now e hc]; exact hid
    | ok r => rw [exec_create_ok w h req g now r hc]; exact List.mem_cons_of_mem _ hid
  | update h rid req now => exact hid
  | delete h rid => exact hid

/-- Every entry found after a call either continues an entry stored under the same hotel
before the call, with the same id, or is the entry a create has just stored. -/
theorem entry_origin (w : World) (c : Call) (k : String) (rs1 : List Reservation)
    (x : Reservation) (hq : (w.exec c).svc.reservations k = some rs1) (hx : x ∈ rs1) :
    (∃ rs, w.svc.reservations k = some rs ∧ ∃ y ∈ rs, y.ID = x.ID) ∨
      ∃ req g now, c = .create k req g now ∧ x.ID = g ∧
        ∃ r, w.svc.createCheck k req g now = .ok r := by
  cases c with
  | create h req g now =>
    cases hc : w.svc.createCheck h req g now with
    | error e =>
      rw [exec_create_error w h req g now e hc] at hq
      exact Or.inl ⟨rs1, hq, x, hx, rfl⟩
    | ok r =>
      rw [exec_create_ok w h req g now r hc] at hq
      simp only [createStore_reservations] at hq
      by_cases hk : k = h
      · subst hk
        rw [if_pos rfl] at hq
        simp only [Option.some.injEq] at hq
        subst hq
        rcases List.mem_append.1 hx with hx | hx
        · cases hold : w.svc.reservations k with
          | none => rw [hold] at hx; simp at hx
          | some old => rw [hold] at hx; exact Or.inl ⟨old, rfl, x, hx, rfl⟩
        · rw [List.mem_singleton] at hx
          subst hx
          obtain ⟨_, _, _, _, hr⟩ := (createCheck_ok_iff _ _ _ _ _ _).1 hc
          exact Or.inr ⟨req, g, now, rfl, by rw [hr], x, hc⟩
      · rw [if_neg hk] at hq
        exact Or.inl ⟨rs1, hq, x, hx, rfl⟩
  | update h rid req now =>
    rcases update_cases w.svc h rid req now with ⟨e, he⟩ | ⟨pre, r, post, e1, _, _, e4⟩
    · rw [exec_update_unchanged w h rid req now e he] at hq
      exact Or.inl ⟨rs1, hq, x, hx, rfl⟩
    · simp only [World.exec, e4] at hq
      by_cases hk : k = h
      · subst hk
        rw [setReservations_same] at hq
        simp only [Option.some.injEq] at hq
        subst hq
        left
        refine ⟨_, e1, ?_⟩
        rcases List.mem_append.1 hx with hx | hx
        · exact ⟨x, by simp [hx], rfl⟩
        · rcases List.mem_cons.1 hx with hx | hx
          · exact ⟨r, by simp, by rw [hx]; rfl⟩
          · exact ⟨x, by simp [hx], rfl⟩
      · rw [setReservations_other _ _ _ _ hk] at hq
        exact Or.inl ⟨rs1, hq, x, hx, rfl⟩
  | delete h rid =>
    rcases delete_cases w.svc h rid with ⟨e, he⟩ | ⟨pre, r, post, e1, _, _, _, e5⟩
    · rw [exec_delete_unchanged w h rid e he] at hq
      exact Or.inl ⟨rs1, hq, x, hx, rfl⟩
    · simp only [World.exec, e5] at hq
      by_cases hk : k = h
      · subst hk
        rw [setReservations_same] at hq
        simp only [Option.some.injEq] at hq
        subst hq
        left
        refine ⟨_, e1, x, ?_, rfl⟩
        rcases List.mem_append.1 hx with hx | hx
        · simp [hx]
        · simp [hx]
      · rw [setReservations_other _ _ _ _ hk] at hq
        exact Or.inl ⟨rs1, hq, x, hx, rfl⟩

theorem cross_step {hs : HotelService} {w : World} (hinv : Inv hs w) (hcd : CrossDistinct w)
    (c : Call) (hf : c.Fresh w) : CrossDistinct (w.exec c) := by
  intro h1 h2 rs1 rs2 hq1 hq2 a ha b hb hab
  rcases entry_origin w c h1 rs1 a hq1 ha with ⟨o1, ho1, y1, hy1, hid1⟩ | ⟨q1, g1, n1, hc1, hg1, _⟩
  · rcases entry_origin w c h2 rs2 b hq2 hb with
      ⟨o2, ho2, y2, hy2, hid2⟩ | ⟨q2, g2, n2, hc2, hg2, _⟩
    · exact hcd h1 h2 o1 o2 ho1 ho2 y1 hy1 y2 hy2 (by rw [hid1, hid2, hab])
    · subst hc2
      exfalso
      apply hf.2
      have := ((hinv.2 h1 o1 ho1).1 y1 hy1).2.1
      rw [hid1, hab, hg2] at this
      exact this
  · rcases entry_origin w c h2 rs2 b hq2 hb with
      ⟨o2, ho2, y2, hy2, hid2⟩ | ⟨q2, g2, n2, hc2, hg2, _⟩
    · subst hc1
      exfalso
      apply hf.2
      have := ((hinv.2 h2 o2 ho2).1 y2 hy2).2.1
      rw [hid2, ← hab, hg1] at this
      exact this
    · rw [hc1] at hc2
      cases hc2
      rfl

theorem reachable_cross {hs : HotelService} {w : World} (hr : Reachable hs w) :
    CrossDistinct w := by
  induction hr with
  | init =>
    intro h1 h2 rs1 rs2 hq1
    simp [World.init, NewReservationService] at hq1
  | step c hprev hfresh ih => exact cross_step (reachable_inv hprev) ih c hfresh

theorem absent_step {id : String} {w : World} (ha : Absent id w) (c : Call)
    (hf : c.Fresh w) : Absent id (w.exec c) := by
  refine ⟨issued_mono w c id ha.1, ?_⟩
  intro k rs1 hq x hx
  rcases entry_origin w c k rs1 x hq hx with ⟨o, ho, y, hy, hid⟩ | ⟨q, g, n, hc, hg, _⟩
  · rw [← hid]; exact ha.2 k o ho y hy
  · subst hc
    intro hxid
    apply hf.2
    rw [← hg, hxid]
    exact ha.1

theorem absent_run {id : String} (cs : List Call) :
    ∀ {w : World}, Absent id w → w.FreshRun cs → Absent id (w.run cs) := by
  induction cs with
  | nil => intro w ha _; exact ha
  | cons c cs ih => intro w ha hf; exact ih (absent_step ha c hf.1) hf.2

theorem absent_after_delete {hs : HotelService} {w : World} (hr : Reachable hs w)
    (h id : String) (hdel : (w.svc.DeleteReservation h id).1 = .ok ()) :
    Absent id (w.exec (.delete h id)) := by
  have hinv := reachable_inv hr
  have hcd := reachable_cross hr
  rcases delete_cases w.svc h id with ⟨e, he⟩ | ⟨pre, r, post, e1, e2, e3, _, e5⟩
  · rw [he] at hdel; cases hdel
  · obtain ⟨hwf, hpw⟩ := hinv.2 h _ e1
    have hrmem : r ∈ pre ++ r :: post := by simp
    rw [List.pairwise_append, List.pairwise_cons] at hpw
    obtain ⟨_, ⟨hp2, _⟩, _⟩ := hpw
    refine ⟨?_, ?_⟩
    · have := (hwf r hrmem).2.1
      rw [e3] at this
      exact this
    · intro k rs1 hq x hx
      simp only [World.exec, e5] at hq
      by_cases hk : k = h
      · subst hk
        rw [setReservations_same] at hq
        simp only [Option.some.injEq] at hq
        subst hq
        rcases List.mem_append.1 hx with hx | hx
        · exact e2 x hx
        · have := (hp2 x hx).1
          rw [e3] at this
          exact fun hc => this hc.symm
      · rw [setReservations_other _ _ _ _ hk] at hq
        intro hxid
        exact hk (hcd k h rs1 _ hq e1 x hx r hrmem (by rw [hxid, e3]))

theorem update_keeps_ids (s : ReservationService) (h id : String)
    (req : UpdateReservationRequest) (now : Time) (k : String) :
    ((s.UpdateReservation h id req now).2.reservations k).map (List.map Reservation.ID) =
      (s.reservations k).map (List.map Reservation.ID) := by
  rcases update_cases s h id req now with ⟨e, he⟩ | ⟨pre, r, post, e1, _, _, e4⟩
  · rw [he]
  · rw [e4]
    by_cases hk : k = h
    · subst hk
      rw [setReservations_same, e1]
      simp [updatedEntry]
    · rw [setReservations_other _ _ _ _ hk]

theorem delete_keeps_entries (s : ReservationService) (h id k : String)
    (rs1 : List Reservation) (hq : (s.DeleteReservation h id).2.reservations k = some rs1) :
    ∃ rs, s.reservations k = some rs ∧ rs1.Sublist rs := by
  rcases delete_cases s h id with ⟨e, he⟩ | ⟨pre, r, post, e1, _, _, _, e5⟩
  · rw [he] at hq
    exact ⟨rs1, hq, List.Sublist.refl _⟩
  · rw [e5] at hq
    by_cases hk : k = h
    · subst hk
      rw [setReservations_same] at hq
      simp only [Option.some.injEq] at hq
      subst hq
      exact ⟨_, e1, List.Sublist.append (List.Sublist.refl _) (List.sublist_cons_self _ _)⟩
    · rw [setReservations_other _ _ _ _ hk] at hq
      exact ⟨rs1, hq, List.Sublist.refl _⟩

/-- C18 (identifier uniqueness): with every generated id a fresh uuid string, in every
ledger reached from the empty one by create, update and delete calls, reservations at
different places of the ledger (another hotel, or another position of the same hotel)
carry different ids; `UpdateReservation` leaves the list of ids of every hotel as it was;
`DeleteReservation` leaves only entries that were stored before, unchanged; and after a
successful delete the deleted id is carried by no reservation of any hotel, whatever calls
follow. -/
theorem C18_identifier_uniqueness (hs : HotelService) (w : World) (hr : Reachable hs w) :
    (∀ (h1 h2 : String) (rs1 rs2 : List Reservation) (i j : Nat) (a b : Reservation),
        w.svc.reservations h1 = some rs1 →
        w.svc.reservations h2 = some rs2 → rs1[i]? = some a → rs2[j]? = some b →
        (h1 ≠ h2 ∨ i ≠ j) → a.ID ≠ b.ID) ∧
      (∀ h id req now k,
        ((w.svc.UpdateReservation h id req now).2.reservations k).map
            (List.map Reservation.ID) =
          (w.svc.reservations k).map (List.map Reservation.ID)) ∧
      (∀ h id k rs1, (w.svc.DeleteReservation h id).2.reservations k = some rs1 →
        ∃ rs, w.svc.reservations k = some rs ∧ rs1.Sublist rs) ∧
      (∀ h id, (w.svc.DeleteReservation h id).1 = .ok () →
        ∀ cs, (w.exec (.delete h id)).FreshRun cs →
          ∀ k rs, ((w.exec (.delete h id)).run cs).svc.reservations k = some rs →
            ∀ x ∈ rs, x.ID ≠ id) := by
  refine ⟨?_, fun h id req now k => update_keeps_ids w.svc h id req now k,
    fun h id k rs1 hq => delete_keeps_entries w.svc h id k rs1 hq, ?_⟩
  · intro h1 h2 rs1 rs2 i j a b hq1 hq2 hi hj hne hab
    have ha : a ∈ rs1 := List.getElem?_mem hi
    have hb : b ∈ rs2 := List.getElem?_mem hj
    have hh : h1 = h2 := reachable_cross hr h1 h2 rs1 rs2 hq1 hq2 a ha b hb hab
    subst hh
    rw [hq1] at hq2
    cases hq2
    rcases hne with hne | hne
    · exact hne rfl
    · exact (pairwise_apart_at ((reachable_inv hr).2 h1 rs1 hq1).2 hi hj hne).1 hab
  · intro h id hdel cs hf k rs hq x hx
    exact (absent_run cs (absent_after_delete hr h id hdel) hf).2 k rs hq x hx

/-- Instance of C18: on the ledger holding Alice's and Bob's stays the two ids differ, and
after Alice's reservation is deleted and Carol's stay created, no entry carries Alice's id. -/
theorem C18_identifier_uniqueness_witness :
    Reachable sampleCatalog aliceBobWorld ∧ aliceStay.ID ≠ bobStay.ID ∧
      (aliceBobWorld.svc.DeleteReservation "H1" aliceID).1 = .ok () ∧
      ∀ k rs, (((aliceBobWorld.exec (.delete "H1" aliceID)).run
          [.create "H1" (mkCreate "Carol" "2024-03-01" "2024-03-04") carolID t2]).svc.reservations
            k = some rs) → ∀ x ∈ rs, x.ID ≠ aliceID :=
  ⟨aliceBobWorld_reachable,
    (C18_identifier_uniqueness sampleCatalog aliceBobWorld aliceBobWorld_reachable).1
      "H1" "H1" [aliceStay, bobStay] [aliceStay, bobStay] 0 1 aliceStay bobStay
      (by decide) (by decide) rfl rfl (Or.inr (by decide)),
    by decide,
    (C18_identifier_uniqueness sampleCatalog aliceBobWorld aliceBobWorld_reachable).2.2.2
      "H1" aliceID (by decide)
      [.create "H1" (mkCreate "Carol" "2024-03-01" "2024-03-04") carolID t2]
      ⟨⟨by decide, by decide⟩, trivial⟩⟩

/-- C19 (stored reservations are well formed): in every ledger reached from the empty one by
create, update and delete calls, every reservation stored under hotel key `h` has
`HotelID = h`, with `h` in the catalog, and its `StartDate` and `EndDate` both parse, the
parsed end strictly after the parsed start; hence the scan of `hasOverlappingReservations`
does not pass over it for a parse error: a range that the overlap test sets against it is
reported as a conflict unless its id is the excluded one. -/
theorem C19_stored_well_formed (hs : HotelService) (w : World) (hr : Reachable hs w)
    (h : String) (rs : List Reservation) (hrs : w.svc.reservations h = some rs)
    (r : Reservation) (hmem : r ∈ rs) :
    r.HotelID = h ∧ (hs.GetHotelByID h).isSome = true ∧
      ∃ start stop, ParseDate r.StartDate = some start ∧ ParseDate r.EndDate = some stop ∧
        stop > start ∧
        ∀ a b ex, r.ID ≠ ex → IsOverlapping a b start stop = true →
          w.svc.hasOverlappingReservations h a b ex = true := by
  obtain ⟨_, _, hid, hcat, a0, b0, hpa, hpb, hab⟩ := ((reachable_inv hr).2 h rs hrs).1 r hmem
  refine ⟨hid, hcat, a0, b0, hpa, hpb, hab, ?_⟩
  intro a b ex hex hov
  exact hasOverlapping_true_of_blocks w.svc h a b ex rs r hrs hmem
    ⟨hex, a0, b0, hpa, hpb, hov⟩

/-- Instance of C19 on Alice's reservation in the sample ledger. -/
theorem C19_stored_well_formed_witness :
    Reachable sampleCatalog aliceWorld ∧ aliceStay.HotelID = "H1" ∧
      ∃ start stop, ParseDate aliceStay.StartDate = some start ∧
        ParseDate aliceStay.EndDate = some stop ∧ stop > start ∧
        ∀ a b ex, aliceStay.ID ≠ ex → IsOverlapping a b start stop = true →
          aliceWorld.svc.hasOverlappingReservations "H1" a b ex = true :=
  have key := C19_stored_well_formed sampleCatalog aliceWorld aliceWorld_reachable "H1"
    [aliceStay] (by decide) aliceStay (by decide)
  ⟨aliceWorld_reachable, key.1, key.2.2⟩

/-- C20, as the claim states it, fails: `ReservationService.CreateReservation` with
`CustomerName = ""` on the empty ledger succeeds and stores the reservation, and
`ReservationService.UpdateReservation` with `CustomerName = ""` succeeds on Alice's
reservation and stores the empty name. -/
theorem C20_counterexample :
    ((World.init sampleCatalog).svc.CreateReservation "H1"
        (mkCreate "" "2024-03-01" "2024-03-05") aliceID t0).1 =
        .ok ⟨aliceID, "H1", "", "2024-03-01", "2024-03-05", t0, t0⟩ ∧
      ((World.init sampleCatalog).svc.CreateReservation "H1"
        (mkCreate "" "2024-03-01" "2024-03-05") aliceID t0).2.reservations "H1" =
        some [⟨aliceID, "H1", "", "2024-03-01", "2024-03-05", t0, t0⟩] ∧
      (aliceWorld.svc.UpdateReservation "H1" aliceID
        (mkUpdate "" "2024-03-01" "2024-03-05") t4).1 =
        .ok ⟨aliceID, "H1", "", "2024-03-01", "2024-03-05", t0, t4⟩ ∧
      (aliceWorld.svc.UpdateReservation "H1" aliceID
        (mkUpdate "" "2024-03-01" "2024-03-05") t4).2.reservations "H1" =
        some [⟨aliceID, "H1", "", "2024-03-01", "2024-03-05", t0, t4⟩] := by
  refine ⟨?_, ?_, ?_, ?_⟩ <;> decide

/-- C20 (amended): every reservation stored or returned by the endpoints
`ReservationHandler.CreateReservation` and `ReservationHandler.UpdateReservation` has a
non-empty `CustomerName`: for every request body with `CustomerName = ""` the endpoint
answers with status 400, returns no reservation and leaves the ledger as it was. -/
theorem C20_handlers_reject_empty_name (s : ReservationService) (h id g : String)
    (now : Time) :
    (∀ req : CreateReservationRequest, req.CustomerName = "" →
        ReservationHandler.CreateReservation s h (some req) g now = (400, none, s)) ∧
      (∀ req : UpdateReservationRequest, req.CustomerName = "" →
        ReservationHandler.UpdateReservation s h id (some req) now = (400, none, s)) ∧
      (∀ body r, (ReservationHandler.CreateReservation s h body g now).2.1 = some r →
        r.CustomerName ≠ "") ∧
      (∀ body r, (ReservationHandler.UpdateReservation s h id body now).2.1 = some r →
        r.CustomerName ≠ "") := by
  refine ⟨?_, ?_, ?_, ?_⟩
  · intro req hreq
    simp [ReservationHandler.CreateReservation, hreq]
  · intro req hreq
    simp [ReservationHandler.UpdateReservation, hreq]
  · intro body r hres
    cases body with
    | none => simp [ReservationHandler.CreateReservation] at hres
    | some req =>
      by_cases hg : (req.CustomerName == "" || req.StartDate == "" || req.EndDate == "") = true
      · simp [ReservationHandler.CreateReservation, hg] at hres
      · have hname : req.CustomerName ≠ "" := by
          intro hc; apply hg; simp [hc]
        cases hc : s.createCheck h req g now with
        | error e =>
          simp only [ReservationHandler.CreateReservation, hg,
            create_of_check_error _ _ _ _ _ e hc, ite_self] at hres
          cases hm : (e.message == "hotel not found") <;> rw [hm] at hres <;> simp at hres
        | ok r1 =>
          simp only [ReservationHandler.CreateReservation, hg,
            create_of_check_ok _ _ _ _ _ r1 hc] at hres
          simp only [Bool.false_eq_true, if_false, Option.some.injEq] at hres
          subst hres
          obtain ⟨_, _, _, _, hr⟩ := (createCheck_ok_iff _ _ _ _ _ _).1 hc
          rw [hr]
          exact hname
  · intro body r hres
    cases body with
    | none => simp [ReservationHandler.UpdateReservation] at hres
    | some req =>
      by_cases hg : (req.CustomerName == "" || req.StartDate == "" || req.EndDate == "") = true
      · simp [ReservationHandler.UpdateReservation, hg] at hres
      · have hname : req.CustomerName ≠ "" := by
          intro hc; apply hg; simp [hc]
        rcases update_cases s h id req now with ⟨e, he⟩ | ⟨pre, r0, post, _, _, _, e4⟩
        · simp only [ReservationHandler.UpdateReservation, hg, he, ite_self] at hres
          cases hm : (e.message == "hotel not found" || e.message == "reservation not found")
            <;> rw [hm] at hres <;> simp at hres
        · simp only [ReservationHandler.UpdateReservation, hg, e4] at hres
          simp only [Bool.false_eq_true, if_false, Option.some.injEq] at hres
          subst hres
          exact hname

/-- Instance of the amended C20: the create endpoint turns down a body with an empty name. -/
theorem C20_handlers_reject_empty_name_witness :
    ReservationHandler.CreateReservation (World.init sampleCatalog).svc "H1"
        (some (mkCreate "" "2024-03-01" "2024-03-05")) aliceID t0 =
      (400, none, (World.init sampleCatalog).svc) :=
  (C20_handlers_reject_empty_name (World.init sampleCatalog).svc "H1" unknownID aliceID t0).1
    (mkCreate "" "2024-03-01" "2024-03-05") rfl

/-! ## Search and pagination -/

theorem wrapInt_of_in_range (x : Int) (h0 : 0 ≤ x) (h1 : x ≤ 9223372036854775807) :
    wrapInt x = x := by
  unfold wrapInt
  omega

theorem searchHotels_page (s : HotelService) (lib : Strings) (params : SearchParams)
    (hno : effectiveOffset params + effectiveLimit params ≤ maxInt) :
    s.SearchHotels lib params =
      some (if effectiveOffset params < ((filteredHotels s lib params).length : Int) then
          ((filteredHotels s lib params).take
            (min (effectiveOffset params + effectiveLimit params)
              ((filteredHotels s lib params).length : Int)).toNat).drop
            (effectiveOffset params).toNat
        else []) := by
  have hl : (if params.Limit ≤ 0 then (20 : Int) else params.Limit) = effectiveLimit params := by
    unfold effectiveLimit
    split_ifs <;> omega
  have ho : (if params.Offset < 0 then (0 : Int) else params.Offset) =
      effectiveOffset params := by
    unfold effectiveOffset
    split_ifs <;> omega
  have hlpos : 0 < effectiveLimit params := by
    unfold effectiveLimit
    split_ifs <;> omega
  have hopos : 0 ≤ effectiveOffset params := by
    unfold effectiveOffset
    split_ifs <;> omega
  have hmax : effectiveOffset params + effectiveLimit params ≤ 9223372036854775807 := hno
  have hw : wrapInt (effectiveOffset params + effectiveLimit params) =
      effectiveOffset params + effectiveLimit params :=
    wrapInt_of_in_range _ (by omega) hmax
  unfold HotelService.SearchHotels
  simp only [hl, ho, hw]
  change (if effectiveOffset params < ((filteredHotels s lib params).length : Int) then
      sliceExpr (filteredHotels s lib params) (effectiveOffset params)
        (if effectiveOffset params + effectiveLimit params >
            ((filteredHotels s lib params).length : Int) then
          ((filteredHotels s lib params).length : Int)
        else effectiveOffset params + effectiveLimit params)
    else some []) = _
  have hend : (if effectiveOffset params + effectiveLimit params >
        ((filteredHotels s lib params).length : Int) then
      ((filteredHotels s lib params).length : Int)
    else effectiveOffset params + effectiveLimit params) =
      min (effectiveOffset params + effectiveLimit params)
        ((filteredHotels s lib params).length : Int) := by
    split_ifs <;> omega
  rw [hend]
  by_cases hlt : effectiveOffset params < ((filteredHotels s lib params).length : Int)
  · rw [if_pos hlt, if_pos hlt]
    unfold sliceExpr
    rw [if_pos]
    refine ⟨hopos, ?_, ?_⟩ <;> omega
  · rw [if_neg hlt, if_neg hlt]

/-- C21 (search pagination): let `filtered` be the hotels of the catalog, in catalog order,
that pass every active filter, `n` its length, `l` the limit in force (`params.Limit` when
positive, else 20) and `o` the offset in force (`params.Offset` when not negative, else 0).
Whenever `o + l` does not overflow, `SearchHotels` returns `filtered[o .. min(o + l, n))`
when `o < n` and the empty list otherwise; the result has at most `l` hotels, keeps the
catalog order, and each of its hotels passes every active filter. -/
theorem C21_search_pagination (s : HotelService) (lib : Strings) (params : SearchParams)
    (hno : effectiveOffset params + effectiveLimit params ≤ maxInt) :
    s.SearchHotels lib params =
        some (if effectiveOffset params < ((filteredHotels s lib params).length : Int) then
            ((filteredHotels s lib params).take
              (min (effectiveOffset params + effectiveLimit params)
                ((filteredHotels s lib params).length : Int)).toNat).drop
              (effectiveOffset params).toNat
          else []) ∧
      ∀ res, s.SearchHotels lib params = some res →
        (res.length : Int) ≤ effectiveLimit params ∧ res.Sublist s.Hotels ∧
          ∀ x ∈ res, passesFilters lib params x = true := by
  have hpage := searchHotels_page s lib params hno
  refine ⟨hpage, ?_⟩
  intro res hres
  rw [hpage] at hres
  have hlpos : 0 < effectiveLimit params := by
    unfold effectiveLimit
    split_ifs <;> omega
  have hopos : 0 ≤ effectiveOffset params := by
    unfold effectiveOffset
    split_ifs <;> omega
  have hsub : res.Sublist (filteredHotels s lib params) := by
    by_cases hlt : effectiveOffset params < ((filteredHotels s lib params).length : Int)
    · rw [if_pos hlt] at hres
      cases hres
      exact (List.drop_sublist _ _).trans (List.take_sublist _ _)
    · rw [if_neg hlt] at hres
      cases hres
      exact List.nil_sublist _
  refine ⟨?_, hsub.trans (List.filter_sublist _), ?_⟩
  · by_cases hlt : effectiveOffset params < ((filteredHotels s lib params).length : Int)
    · rw [if_pos hlt] at hres
      cases hres
      rw [List.length_drop, List.length_take]
      omega
    · rw [if_neg hlt] at hres
      cases hres
      simp only [List.length_nil]
      omega
  · intro x hx
    have hmem := hsub.subset hx
    unfold filteredHotels at hmem
    exact (List.mem_filter.1 hmem).2

/-- Instance of C21: the second and third of the three `US` hotels of the sample catalog. -/
theorem C21_search_pagination_witness :
    effectiveOffset (pageParams "US" 2 1) + effectiveLimit (pageParams "US" 2 1) ≤ maxInt ∧
      searchCatalog.SearchHotels asciiStrings (pageParams "US" 2 1) =
        some [countryHotel "H3" "US", countryHotel "H4" "US"] :=
  ⟨by decide,
    ((C21_search_pagination searchCatalog asciiStrings (pageParams "US" 2 1)
      (by decide)).1).trans (by decide)⟩

/-- C22 fails on the code (a wrapped page end): the query values `limit=9223372036854775807`
and `offset=1` parse to `Limit = maxInt` and `Offset = 1`; on a catalog of four hotels the
sum `Offset + Limit` wraps to the least `int`, is not clamped to the number of results,
and the slice expression is evaluated with an end below the offset, which panics. -/
theorem C22_search_panics_on_wrapped_end :
    parsePagination "9223372036854775807" "1" = (maxInt, 1) ∧
      (filteredHotels searchCatalog asciiStrings (pageParams "" maxInt 1)).length = 4 ∧
      wrapInt (1 + maxInt) = -9223372036854775808 ∧
      sliceExpr searchCatalog.Hotels 1 (-9223372036854775808) = none ∧
      searchCatalog.SearchHotels asciiStrings (pageParams "" maxInt 1) = none := by
  refine ⟨?_, ?_, ?_, ?_, ?_⟩ <;> decide

/-- C23 (closed-interval separation): in every ledger reached from the empty one by
sequential create, update and delete calls with fresh ids, any two reservations at
different positions of one hotel's collection, with parsed ranges `(s1, e1)` and
`(s2, e2)`, satisfy `e1 < s2` or `e2 < s1`: they share no date, not even a boundary. -/
theorem C23_closed_interval_separation (hs : HotelService) (w : World)
    (hr : Reachable hs w) (h : String) (rs : List Reservation)
    (hrs : w.svc.reservations h = some rs) (i j : Nat) (a b : Reservation)
    (hi : rs[i]? = some a) (hj : rs[j]? = some b) (hij : i ≠ j) (s1 e1 s2 e2 : Time)
    (hs1 : ParseDate a.StartDate = some s1) (he1 : ParseDate a.EndDate = some e1)
    (hs2 : ParseDate b.StartDate = some s2) (he2 : ParseDate b.EndDate = some e2) :
    e1 < s2 ∨ e2 < s1 := by
  have hap := pairwise_apart_at ((reachable_inv hr).2 h rs hrs).2 hi hj hij
  have hov := hap.2 s1 e1 s2 e2 hs1 he1 hs2 he2
  rw [isOverlapping_false_iff] at hov
  exact hov.symm

/-- Instance of C23 on the ledger holding Alice's stay `2024-03-01..2024-03-05` and Bob's
stay `2024-03-06..2024-03-10`. -/
theorem C23_closed_interval_separation_witness :
    Reachable sampleCatalog aliceBobWorld ∧
      aliceBobWorld.svc.reservations "H1" = some [aliceStay, bobStay] ∧
      (dateInstant 2024 3 5 < dateInstant 2024 3 6 ∨
        dateInstant 2024 3 10 < dateInstant 2024 3 1) :=
  ⟨aliceBobWorld_reachable, by decide,
    C23_closed_interval_separation sampleCatalog aliceBobWorld aliceBobWorld_reachable "H1"
      [aliceStay, bobStay] (by decide) 0 1 aliceStay bobStay rfl rfl (by decide)
      (dateInstant 2024 3 1) (dateInstant 2024 3 5) (dateInstant 2024 3 6)
      (dateInstant 2024 3 10) (by decide) (by decide) (by decide) (by decide)⟩

end HotelsApi
